import Mathlib

/-!
Verification of `readadat.py` (`readAdat`), a single-pass parser for
SomaLogic ADAT files.

The embedding takes the input as an already-tokenized list of rows
(`List (List String)`), exactly as produced by Python's
`csv.reader(..., delimiter='\t')`: one list of string fields per line.
Every partial operation of the Python code (`row[i]`, `list.index`,
`dict[...]`, `DataFrame.loc[...]`, `astype`) is modelled as an explicit
`Except` failure, with one error constructor per Python failure site:

* `indexError`                -- `row[i]` out of range (Python `IndexError`)
* `valueError f`              -- `list.index(f)` with `f` absent (Python `ValueError`)
* `keyErrorSampleAnnotNames`  -- `adatVals['SampleAnnotNames']` before any
                                 `!Name` row was seen (Python `KeyError`;
                                 the spec's "SchemaError")
* `keyErrorSeqId`             -- `sequenceData.loc['SeqId']` with no `SeqId`
                                 row (Python `KeyError`; the spec's "FormatError")
* `typeError`                 -- `"SeqId." + v` where `v` is not a string
                                 (a padded `NaN` cell, or the column labels of a
                                 sub-DataFrame when `SeqId` occurs twice)
* `columnsMismatch`           -- `pd.DataFrame(data, columns=...)` with a
                                 column-count mismatch (Python `ValueError`)
* `parseError cell`           -- `astype('float64')` on a non-numeric cell
                                 (the spec's "ParseError", naming the cell)

The two pandas DataFrames are modelled structurally: construction from a
ragged list of rows pads each row with `NaN` (here `Option.none`) to the
maximal row length, and `astype('float64')` converts the readout cells to
floats (`PCell.num` / `PCell.nan`), failing on the first cell that Python's
`float()` would reject.  `astype` is modelled positionally on the readout
columns, which agrees with pandas' label-based dictionary whenever the
column labels are distinct.
-/

namespace Readadat

/-- One cell of the final sample-and-intensity table: sample-annotation
cells stay text, readout cells become 64-bit floats (`NaN` for cells
introduced by ragged-row padding, as in pandas). -/
inductive PCell where
  | str (s : String)
  | num (f : Float)
  | nan

/-- A cell is of floating-point type (`float64` in numpy terms). -/
def PCell.isNumeric : PCell → Bool
  | .str _ => false
  | .num _ => true
  | .nan => true

/-- Errors of the parse, one constructor per Python failure site (see the
module docstring for the correspondence). -/
inductive AdatError where
  | indexError
  | valueError (field : String)
  | keyErrorSampleAnnotNames
  | keyErrorSeqId
  | typeError
  | columnsMismatch
  | parseError (cell : String)
deriving DecidableEq, Repr

/-- The mutable state of `readAdat`'s single pass over the lines
(lines 37-51 of `readadat.py`). -/
structure ParseState where
  curSection : Option String
  checksum : Option String
  metadata : List (String × String)
  sampleAnnotNames : Option (List String)
  sampleTypeFieldI : Option Nat
  rowCheckFieldI : Option Nat
  sampleAndIntensityData : List (List String)
  sequenceData : List (List String)
  sequenceDataIndex : List String
  colPassFlag : Option (List Bool)

/-- The initial parse state (lines 37-48 of `readadat.py`). -/
def initState : ParseState :=
  { curSection := none
    checksum := none
    metadata := []
    sampleAnnotNames := none
    sampleTypeFieldI := none
    rowCheckFieldI := none
    sampleAndIntensityData := []
    sequenceData := []
    sequenceDataIndex := []
    colPassFlag := none }

/-- `sectionTitles` (line 41). -/
def markers : List String := ["^HEADER", "^COL_DATA", "^ROW_DATA", "^TABLE_BEGIN"]

/-- Python `dict` assignment `d[k] = v`: overwrite in place on a duplicate
key (keeping the original position), append otherwise. -/
def updateAssoc (m : List (String × String)) (k v : String) : List (String × String) :=
  if m.any (fun p => p.1 == k) then
    m.map (fun p => if p.1 == k then (k, v) else p)
  else m ++ [(k, v)]

/-- `[i for (i, v) in zip(xs, m) if v]` (lines 76 and 96): keep the
positions of `xs` where the mask is true; `zip` truncates to the shorter
of the two lists, exactly as in Python. -/
def filterMask (xs : List α) (m : List Bool) : List α :=
  ((xs.zip m).filter (fun p => p.2)).map (fun p => p.1)

/-- Python truthiness of `colPassFlag` (`keepOnlyPasses and colPassFlag`,
lines 75 and 94): `None` and the empty list are falsy. -/
def truthy : Option (List Bool) → Bool
  | none => false
  | some m => !m.isEmpty

/-- `keepOnlySamples and sample_type_field_i is not None and
curSampleAnnotSlice[sample_type_field_i] != 'Sample'` (lines 66-69).  The
`getD` default is never consulted on reachable states: the stored offset
always points into the slice (it is an index into the `!Name` schema, and
the slice has the schema's length). -/
def sampTypeFails (ti : Option Nat) (samp : List String) : Bool :=
  match ti with
  | some i => samp.getD i "" != "Sample"
  | none => false

/-- `keepOnlyPasses and row_check_field_i is not None and
curRowCheck != 'PASS'` (lines 70-73); same `getD` remark as `sampTypeFails`. -/
def rowCheckFails (ri : Option Nat) (samp : List String) : Bool :=
  match ri with
  | some i => samp.getD i "" != "PASS"
  | none => false

/-- Processing of one row inside the `^TABLE_BEGIN` section
(lines 53-77 of `readadat.py`). -/
def stepTable (kop ksam : Bool) (st : ParseState) (row : List String) :
    Except AdatError ParseState :=
  match st.sampleAnnotNames with
  | none => .error .keyErrorSampleAnnotNames
  | some san =>
    match row.get? san.length with
    | none => .error .indexError
    | some curColName =>
      if curColName ≠ "" then
        -- column annotation row (lines 56-61)
        let slice := row.drop (san.length + 1)
        let st1 := { st with
          sequenceData := st.sequenceData ++ [slice]
          sequenceDataIndex := st.sequenceDataIndex ++ [curColName] }
        if kop && (curColName == "ColCheck") then
          .ok { st1 with colPassFlag := some (slice.map (fun v => v == "PASS")) }
        else .ok st1
      else
        -- sample annotation row (lines 62-77)
        let samp := row.take san.length
        if samp = san then .ok st
        else if ksam && sampTypeFails st.sampleTypeFieldI samp then .ok st
        else if kop && rowCheckFails st.rowCheckFieldI samp then .ok st
        else
          let readout0 := row.drop (san.length + 1)
          let readout :=
            if kop && truthy st.colPassFlag then
              filterMask readout0 (st.colPassFlag.getD [])
            else readout0
          .ok { st with
            sampleAndIntensityData := st.sampleAndIntensityData ++ [samp ++ readout] }

/-- Processing of one row outside the `^TABLE_BEGIN` section
(lines 78-90 of `readadat.py`).  An empty row raises `IndexError` at
`row[0]`; a `!Name` row in `^ROW_DATA` uses `list.index`, which raises
`ValueError` when `SampleType` or `RowCheck` is absent (lines 88-89). -/
def stepOther (st : ParseState) (row : List String) : Except AdatError ParseState :=
  match row with
  | [] => .error .indexError
  | r0 :: rest =>
    if r0 ∈ markers then .ok { st with curSection := some r0 }
    else if st.curSection = none ∧ r0 = "!Checksum" then
      match rest with
      | [] => .error .indexError
      | v :: _ => .ok { st with checksum := some v }
    else if st.curSection = some "^HEADER" then
      match rest with
      | [] => .error .indexError
      | v :: _ => .ok { st with metadata := updateAssoc st.metadata r0 v }
    else if st.curSection = some "^ROW_DATA" ∨ st.curSection = some "^COL_DATA" then
      if st.curSection = some "^ROW_DATA" ∧ r0 = "!Name" then
        if "SampleType" ∈ rest then
          if "RowCheck" ∈ rest then
            .ok { st with
              sampleTypeFieldI := some (rest.indexOf "SampleType")
              rowCheckFieldI := some (rest.indexOf "RowCheck")
              sampleAnnotNames := some rest }
          else .error (.valueError "RowCheck")
        else .error (.valueError "SampleType")
      else .ok st
    else .ok st

/-- One iteration of the `for row in csv_reader` loop (lines 52-92):
the `^TABLE_BEGIN` branch is tested first, everything else after. -/
def step (kop ksam : Bool) (st : ParseState) (row : List String) :
    Except AdatError ParseState :=
  if st.curSection = some "^TABLE_BEGIN" then stepTable kop ksam st row
  else stepOther st row

/-- The whole loop over all rows of the file. -/
def runLines (kop ksam : Bool) (st : ParseState) :
    List (List String) → Except AdatError ParseState
  | [] => .ok st
  | row :: rows =>
    match step kop ksam st row with
    | .error e => .error e
    | .ok st1 => runLines kop ksam st1 rows

/-! ### The finalization phase (lines 94-115) -/

/-- Maximal row length of a ragged list of rows; the column count pandas
gives a DataFrame built from it. -/
def maxLen : List (List α) → Nat
  | [] => 0
  | r :: rs => max r.length (maxLen rs)

/-- Pad one row to width `w` with `NaN` cells, as pandas does when
building a DataFrame from ragged rows. -/
def padTo (w : Nat) (r : List String) : List (Option String) :=
  r.map some ++ List.replicate (w - r.length) none

/-- Lines 94-96: if pass-filtering is on and a (truthy) mask exists,
retroactively filter every accumulated column-annotation row. -/
def filteredSeq (kop : Bool) (st : ParseState) : List (List String) :=
  if kop && truthy st.colPassFlag then
    st.sequenceData.map (fun r => filterMask r (st.colPassFlag.getD []))
  else st.sequenceData

/-- Line 102: `["SeqId." + v for v in sequenceData.loc['SeqId']]` over one
(padded) `SeqId` row.  A padded `NaN` cell makes `"SeqId." + v` raise
`TypeError`. -/
def seqIdLabels : List (Option String) → Except AdatError (List String)
  | [] => .ok []
  | some v :: cs =>
    match seqIdLabels cs with
    | .error e => .error e
    | .ok ids => .ok (("SeqId." ++ v) :: ids)
  | none :: _ => .error .typeError

/-- Lines 102-103: `sequenceData.loc['SeqId']`.  With exactly one matching
index entry, pandas returns that row.  With none it raises `KeyError`.
With several it returns a sub-DataFrame; iterating that yields its column
labels (integers `0..w-1`), so `"SeqId." + label` raises `TypeError`
unless the frame has zero columns, in which case the comprehension is
empty. -/
def seqIdsOf (index : List String) (padded : List (List (Option String))) (w : Nat) :
    Except AdatError (List String) :=
  match (index.zip padded).filter (fun p => p.1 == "SeqId") with
  | [] => .error .keyErrorSeqId
  | [p] => seqIdLabels p.2
  | _ :: _ :: _ => if w = 0 then .ok [] else .error .typeError

/-! Python `float()` on a string, as invoked by
`astype({...: 'float64'})` (line 110): optional surrounding whitespace,
optional sign, then either a decimal number (`digits`, `digits.`,
`digits.digits` or `.digits`, with an optional integer exponent after
`e`/`E`) or one of `inf`/`infinity`/`nan` in any case.  (Underscores
between digits, accepted by Python >= 3.6, are not modelled.)  The claims
never depend on the numeric value, only on acceptance. -/

/-- Decimal value of a digit string. -/
def natOfDigits (cs : List Char) : Nat :=
  cs.foldl (fun a c => a * 10 + (c.toNat - 48)) 0

/-- Strip leading and trailing whitespace. -/
def trimChars (cs : List Char) : List Char :=
  ((cs.dropWhile Char.isWhitespace).reverse.dropWhile Char.isWhitespace).reverse

/-- Consume an optional sign; `true` means negative. -/
def takeSign : List Char → Bool × List Char
  | '+' :: cs => (false, cs)
  | '-' :: cs => (true, cs)
  | cs => (false, cs)

/-- Split at the first `e`/`E`, if any. -/
def splitOnExp (cs : List Char) : List Char × Option (List Char) :=
  match cs.findIdx? (fun c => c == 'e' || c == 'E') with
  | none => (cs, none)
  | some i => (cs.take i, some (cs.drop (i + 1)))

/-- Parse `digits[.digits]` / `.digits`; returns the digits' value and the
number of fractional digits. -/
def parseMantissa (cs : List Char) : Option (Nat × Nat) :=
  let ip := cs.takeWhile Char.isDigit
  let rest := cs.dropWhile Char.isDigit
  match rest with
  | [] => if ip.isEmpty then none else some (natOfDigits ip, 0)
  | '.' :: fp =>
    if fp.all Char.isDigit && !(ip.isEmpty && fp.isEmpty) then
      some (natOfDigits (ip ++ fp), fp.length)
    else none
  | _ => none

/-- Parse a signed integer exponent. -/
def parseExp (cs : List Char) : Option Int :=
  let (neg, ds) := takeSign cs
  if !ds.isEmpty && ds.all Char.isDigit then
    some (if neg then -(natOfDigits ds : Int) else (natOfDigits ds : Int))
  else none

/-- `m * 10 ^ e` as a `Float`. -/
def floatMag (m : Nat) (e : Int) : Float :=
  if 0 ≤ e then Float.ofScientific (m * 10 ^ e.toNat) false 0
  else Float.ofScientific m true (-e).toNat

/-- Apply a sign to a float. -/
def signed (neg : Bool) (f : Float) : Float := if neg then -f else f

/-- Python `float(s)` on a string: `some` value on acceptance, `none` on
the `ValueError` that `astype` surfaces as a conversion failure. -/
def pyFloat (s : String) : Option Float :=
  let cs0 := trimChars s.data
  let (neg, cs) := takeSign cs0
  let lower := cs.map Char.toLower
  if lower == "inf".data || lower == "infinity".data then
    some (signed neg (Float.ofScientific 1 false 400))
  else if lower == "nan".data then
    some (Float.ofScientific 0 false 0 / Float.ofScientific 0 false 0)
  else
    let (mant, expo) := splitOnExp cs
    match parseMantissa mant with
    | none => none
    | some mf =>
      match expo with
      | none => some (signed neg (floatMag mf.1 (-(mf.2 : Int))))
      | some ec =>
        match parseExp ec with
        | none => none
        | some e => some (signed neg (floatMag mf.1 (e - (mf.2 : Int))))

/-- `astype` conversion of the cell at column position `j` of a padded
sample row: the first `n` columns (the sample-annotation fields) keep
their text, the later ones (the readout columns) are converted to
`float64`, failing on a non-numeric cell and naming it. -/
def astypeCell (n : Nat) (j : Nat) (c : Option String) : Except AdatError PCell :=
  match c with
  | none => .ok .nan
  | some s =>
    if j < n then .ok (.str s)
    else
      match pyFloat s with
      | some f => .ok (.num f)
      | none => .error (.parseError s)

/-- `astype` over the cells of one padded row, starting at column `j`. -/
def astypeCells (n : Nat) (j : Nat) : List (Option String) → Except AdatError (List PCell)
  | [] => .ok []
  | c :: cs =>
    match astypeCell n j c with
    | .error e => .error e
    | .ok p =>
      match astypeCells n (j + 1) cs with
      | .error e => .error e
      | .ok ps => .ok (p :: ps)

/-- `astype` over all accumulated sample rows, each first padded to the
DataFrame width `w2` (lines 105-110). -/
def astypeTable (n w2 : Nat) : List (List String) → Except AdatError (List (List PCell))
  | [] => .ok []
  | r :: rs =>
    match astypeCells n 0 (padTo w2 r) with
    | .error e => .error e
    | .ok pr =>
      match astypeTable n w2 rs with
      | .error e => .error e
      | .ok prs => .ok (pr :: prs)

/-- `SequenceData`: the protein/sequence annotation DataFrame (row labels,
column labels, padded cell rows). -/
structure SeqTable where
  index : List String
  columns : List String
  rows : List (List (Option String))

/-- `SampleAndIntensityData`: the sample-annotation + readout DataFrame. -/
structure SampleTable where
  columns : List String
  rows : List (List PCell)

/-- The composite result of `readAdat` (the returned `adatVals` dict). -/
structure AdatResult where
  checksum : Option String
  metadata : List (String × String)
  sampleAnnotNames : List String
  sequenceAnnotNames : List String
  sequenceData : SeqTable
  sampleAndIntensityData : SampleTable

/-- Number of readout (protein-identifier) columns of the final sample
table: its columns are the sample-annotation fields followed by the
protein identifiers. -/
def AdatResult.readoutColCount (r : AdatResult) : Nat :=
  r.sampleAndIntensityData.columns.length - r.sampleAnnotNames.length

/-- Finalization (lines 94-115): retroactive column filtering, DataFrame
assembly for both tables, `SeqId` column labelling, and `float64`
coercion of the readout columns. -/
def finalize (kop : Bool) (st : ParseState) : Except AdatError AdatResult :=
  let seqData := filteredSeq kop st
  let w := maxLen seqData
  let paddedSeq := seqData.map (padTo w)
  match st.sampleAnnotNames with
  | none => .error .keyErrorSampleAnnotNames
  | some san =>
    match seqIdsOf st.sequenceDataIndex paddedSeq w with
    | .error e => .error e
    | .ok seqIds =>
      let dfCols := san ++ seqIds
      if st.sampleAndIntensityData.isEmpty then
        .ok { checksum := st.checksum
              metadata := st.metadata
              sampleAnnotNames := san
              sequenceAnnotNames := st.sequenceDataIndex
              sequenceData := ⟨st.sequenceDataIndex, seqIds, paddedSeq⟩
              sampleAndIntensityData := ⟨dfCols, []⟩ }
      else
        let w2 := maxLen st.sampleAndIntensityData
        if dfCols.length = w2 then
          match astypeTable san.length w2 st.sampleAndIntensityData with
          | .error e => .error e
          | .ok prows =>
            .ok { checksum := st.checksum
                  metadata := st.metadata
                  sampleAnnotNames := san
                  sequenceAnnotNames := st.sequenceDataIndex
                  sequenceData := ⟨st.sequenceDataIndex, seqIds, paddedSeq⟩
                  sampleAndIntensityData := ⟨dfCols, prows⟩ }
        else .error .columnsMismatch

/-- Run the pass from a given state over the remaining lines, then
finalize. -/
def runFinal (kop ksam : Bool) (st : ParseState) (rows : List (List String)) :
    Except AdatError AdatResult :=
  match runLines kop ksam st rows with
  | .error e => .error e
  | .ok st1 => finalize kop st1

/-- `readAdat(adat_file, keepOnlyPasses, keepOnlySamples)`: run the pass
over all (tokenized) lines from the initial state, then finalize. -/
def readAdat (input : List (List String)) (kop ksam : Bool) :
    Except AdatError AdatResult :=
  runFinal kop ksam initState input

/-! ### Spec-side definitions used to state the claims -/

/-- The spec's per-row retention rule for a `^TABLE_BEGIN` row, relative
to the discovered schema `san` (spec, sections 4.3 and 8): the row is a
sample-annotation row (empty column-annotation name slot), it is not a
second embedded copy of the schema header, its `SampleType` value is
`"Sample"` when sample filtering is enabled, and its `RowCheck` value is
`"PASS"` when pass filtering is enabled — all by exact string equality. -/
def surviveRow (kop ksam : Bool) (san : List String) (row : List String) : Bool :=
  (row.get? san.length == some "") &&
  !(row.take san.length == san) &&
  !(ksam && sampTypeFails (some (san.indexOf "SampleType")) (row.take san.length)) &&
  !(kop && rowCheckFails (some (san.indexOf "RowCheck")) (row.take san.length))

/-- The rows of the `^TABLE_BEGIN` section of an input: everything after
the first row whose first field is the `^TABLE_BEGIN` marker. -/
def tableSectionRows : List (List String) → List (List String)
  | [] => []
  | row :: rows =>
    if row.head? = some "^TABLE_BEGIN" then rows else tableSectionRows rows

/-- A line whose first field is `!Checksum` occurs before the first
section-marker line of the input. -/
def preMarkerChecksum : List (List String) → Bool
  | [] => false
  | row :: rows =>
    match row.head? with
    | some h =>
      if h ∈ markers then false
      else if h = "!Checksum" then true
      else preMarkerChecksum rows
    | none => preMarkerChecksum rows

/-- Invariant of the pass: whenever a schema has been discovered, the two
filter offsets are exactly the schema indices of `SampleType` and
`RowCheck` (they are set together with the schema, lines 87-90). -/
def IndexInv (st : ParseState) : Prop :=
  ∀ s, st.sampleAnnotNames = some s →
    st.sampleTypeFieldI = some (s.indexOf "SampleType") ∧
    st.rowCheckFieldI = some (s.indexOf "RowCheck")

/-- Invariant of the pass: a column pass mask exists only when pass
filtering is enabled and comes from a processed `ColCheck`
column-annotation row, position `i` of the mask being true iff that row's
value `i` is exactly `"PASS"` (lines 60-61). -/
def FlagInv (kop : Bool) (st : ParseState) : Prop :=
  ∀ m, st.colPassFlag = some m →
    kop = true ∧ "ColCheck" ∈ st.sequenceDataIndex ∧
    ∃ slice ∈ st.sequenceData, m = slice.map (fun v => v == "PASS")

/-! ### Concrete inputs, states and results used as witnesses -/

/-- An input whose `ColCheck` column-annotation row carries no values: its
mask is the empty list, which is falsy in Python, so no column filtering
happens even though the row is present. -/
def exC2 : List (List String) :=
  [["^ROW_DATA"], ["!Name", "SampleId", "SampleType", "RowCheck"], ["^TABLE_BEGIN"],
   ["", "", "", "ColCheck"], ["", "", "", "SeqId", "A"]]

/-- A well-formed input with a two-protein `ColCheck` row (`PASS`/`FAIL`)
and no sample rows. -/
def exC2w : List (List String) :=
  [["^ROW_DATA"], ["!Name", "SampleId", "SampleType", "RowCheck"], ["^TABLE_BEGIN"],
   ["", "", "", "ColCheck", "PASS", "FAIL"], ["", "", "", "SeqId", "A", "B"]]

/-- The parse state after the pass over `exC2w`. -/
def stC2w : ParseState :=
  { curSection := some "^TABLE_BEGIN"
    checksum := none
    metadata := []
    sampleAnnotNames := some ["SampleId", "SampleType", "RowCheck"]
    sampleTypeFieldI := some 1
    rowCheckFieldI := some 2
    sampleAndIntensityData := []
    sequenceData := [["PASS", "FAIL"], ["A", "B"]]
    sequenceDataIndex := ["ColCheck", "SeqId"]
    colPassFlag := some [true, false] }

/-- The result of `readAdat` on `exC2w`. -/
def rC2w : AdatResult :=
  { checksum := none
    metadata := []
    sampleAnnotNames := ["SampleId", "SampleType", "RowCheck"]
    sequenceAnnotNames := ["ColCheck", "SeqId"]
    sequenceData := ⟨["ColCheck", "SeqId"], ["SeqId.A"], [[some "PASS"], [some "A"]]⟩
    sampleAndIntensityData := ⟨["SampleId", "SampleType", "RowCheck", "SeqId.A"], []⟩ }

/-- An input with one retained sample row, one filtered-out calibrator
row and one embedded duplicate of the schema header row. -/
def exC3w : List (List String) :=
  [["^ROW_DATA"], ["!Name", "SampleId", "SampleType", "RowCheck"], ["^TABLE_BEGIN"],
   ["", "", "", "SeqId"],
   ["S1", "Sample", "PASS", ""],
   ["C1", "Calibrator", "PASS", ""],
   ["SampleId", "SampleType", "RowCheck", ""]]

/-- The result of `readAdat` on `exC3w`. -/
def rC3w : AdatResult :=
  { checksum := none
    metadata := []
    sampleAnnotNames := ["SampleId", "SampleType", "RowCheck"]
    sequenceAnnotNames := ["SeqId"]
    sequenceData := ⟨["SeqId"], [], [[]]⟩
    sampleAndIntensityData := ⟨["SampleId", "SampleType", "RowCheck"],
      [[.str "S1", .str "Sample", .str "PASS"]]⟩ }

/-- A minimal input with one protein and no sample rows. -/
def exC4w : List (List String) :=
  [["^ROW_DATA"], ["!Name", "SampleId", "SampleType", "RowCheck"], ["^TABLE_BEGIN"],
   ["", "", "", "SeqId", "A"]]

/-- The result of `readAdat` on `exC4w`. -/
def rC4w : AdatResult :=
  { checksum := none
    metadata := []
    sampleAnnotNames := ["SampleId", "SampleType", "RowCheck"]
    sequenceAnnotNames := ["SeqId"]
    sequenceData := ⟨["SeqId"], ["SeqId.A"], [[some "A"]]⟩
    sampleAndIntensityData := ⟨["SampleId", "SampleType", "RowCheck", "SeqId.A"], []⟩ }

/-- A mid-table state with the schema discovered and no pass mask yet. -/
def stC5a : ParseState :=
  { initState with
    curSection := some "^TABLE_BEGIN"
    sampleAnnotNames := some ["SampleId", "SampleType", "RowCheck"]
    sampleTypeFieldI := some 1
    rowCheckFieldI := some 2 }

/-- The same mid-table state with a two-protein pass mask. -/
def stC5b : ParseState := { stC5a with colPassFlag := some [true, false] }

/-- A retained sample row with two readout values. -/
def rowC5 : List String := ["S1", "Sample", "PASS", "", "1.5", "2.5"]

/-- `stC5a` after processing `rowC5` (readouts kept whole). -/
def stC5a1 : ParseState :=
  { stC5a with sampleAndIntensityData := [["S1", "Sample", "PASS", "1.5", "2.5"]] }

/-- `stC5b` after processing `rowC5` (readouts filtered by the mask). -/
def stC5b1 : ParseState :=
  { stC5b with sampleAndIntensityData := [["S1", "Sample", "PASS", "1.5"]] }

/-- An input with one protein and one retained sample row holding a
numeric readout. -/
def exC8w : List (List String) :=
  [["^ROW_DATA"], ["!Name", "SampleId", "SampleType", "RowCheck"], ["^TABLE_BEGIN"],
   ["", "", "", "SeqId", "X"],
   ["S1", "Sample", "PASS", "", "1.5"]]

/-- The parse state after the pass over `exC8w`. -/
def stC8w : ParseState :=
  { curSection := some "^TABLE_BEGIN"
    checksum := none
    metadata := []
    sampleAnnotNames := some ["SampleId", "SampleType", "RowCheck"]
    sampleTypeFieldI := some 1
    rowCheckFieldI := some 2
    sampleAndIntensityData := [["S1", "Sample", "PASS", "1.5"]]
    sequenceData := [["X"]]
    sequenceDataIndex := ["SeqId"]
    colPassFlag := none }

/-- The result of `readAdat` on `exC8w`: the readout cell `"1.5"` has
been coerced to the 64-bit float `15e-1`. -/
def rC8w : AdatResult :=
  { checksum := none
    metadata := []
    sampleAnnotNames := ["SampleId", "SampleType", "RowCheck"]
    sequenceAnnotNames := ["SeqId"]
    sequenceData := ⟨["SeqId"], ["SeqId.X"], [[some "X"]]⟩
    sampleAndIntensityData := ⟨["SampleId", "SampleType", "RowCheck", "SeqId.X"],
      [[.str "S1", .str "Sample", .str "PASS", .num (Float.ofScientific 15 true 1)]]⟩ }

/-- An input with a pre-section checksum line. -/
def exC10w : List (List String) :=
  [["!Checksum", "abcd"], ["^ROW_DATA"], ["!Name", "SampleId", "SampleType", "RowCheck"],
   ["^TABLE_BEGIN"], ["", "", "", "SeqId"]]

/-- The result of `readAdat` on `exC10w`. -/
def rC10w : AdatResult :=
  { checksum := some "abcd"
    metadata := []
    sampleAnnotNames := ["SampleId", "SampleType", "RowCheck"]
    sequenceAnnotNames := ["SeqId"]
    sequenceData := ⟨["SeqId"], [], [[]]⟩
    sampleAndIntensityData := ⟨["SampleId", "SampleType", "RowCheck"], []⟩ }

/-! ### Lemmas about the list helpers -/

theorem filterMask_cons (x : α) (xs : List α) (b : Bool) (bs : List Bool) :
    filterMask (x :: xs) (b :: bs) =
      if b then x :: filterMask xs bs else filterMask xs bs := by
  cases b <;> simp [filterMask]

theorem filterMask_nil_right (xs : List α) : filterMask xs [] = [] := by
  simp [filterMask]

theorem filterMask_length_le (xs : List α) (m : List Bool) :
    (filterMask xs m).length ≤ m.countP id := by
  induction xs generalizing m with
  | nil => simp [filterMask]
  | cons x xs ih =>
    cases m with
    | nil => simp [filterMask]
    | cons b bs =>
      rw [filterMask_cons]
      cases b <;> simpa [List.countP_cons] using ih bs

theorem filterMask_map_length (xs : List α) (g : α → Bool) :
    (filterMask xs (xs.map g)).length = (xs.map g).countP id := by
  induction xs with
  | nil => simp [filterMask]
  | cons x xs ih =>
    rw [List.map_cons, filterMask_cons]
    cases hg : g x <;> simp [List.countP_cons, hg, ih]

theorem le_maxLen {rows : List (List α)} {r : List α} (h : r ∈ rows) :
    r.length ≤ maxLen rows := by
  induction rows with
  | nil => cases h
  | cons q qs ih =>
    rcases List.mem_cons.mp h with rfl | h
    · exact Nat.le_max_left _ _
    · exact Nat.le_trans (ih h) (Nat.le_max_right _ _)

theorem maxLen_le {rows : List (List α)} {c : Nat} (h : ∀ r ∈ rows, r.length ≤ c) :
    maxLen rows ≤ c := by
  induction rows with
  | nil => exact Nat.zero_le c
  | cons q qs ih =>
    exact Nat.max_le.mpr ⟨h q (List.mem_cons_self q qs), ih fun r hr => h r (List.mem_cons_of_mem q hr)⟩

theorem maxLen_eq_of {rows : List (List α)} {c : Nat}
    (hub : ∀ r ∈ rows, r.length ≤ c) (hmem : ∃ r ∈ rows, r.length = c) :
    maxLen rows = c := by
  obtain ⟨r, hr, he⟩ := hmem
  exact Nat.le_antisymm (maxLen_le hub) (he ▸ le_maxLen hr)

theorem padTo_length {w : Nat} {r : List String} (h : r.length ≤ w) :
    (padTo w r).length = w := by
  simp only [padTo, List.length_append, List.length_map, List.length_replicate]
  omega

theorem padTo_get?_of_lt {w : Nat} {r : List String} {j : Nat} (h : j < r.length) :
    (padTo w r).get? j = (r.get? j).map some := by
  rw [padTo, List.get?_append (by simpa using h), List.get?_map]

theorem mem_zip_get? {l : List α} {l' : List β} {a : α} {b : β}
    (h : (a, b) ∈ l.zip l') : ∃ i, l.get? i = some a ∧ l'.get? i = some b := by
  induction l generalizing l' with
  | nil => simp [List.zip] at h
  | cons x xs ih =>
    cases l' with
    | nil => simp [List.zip] at h
    | cons y ys =>
      rcases List.mem_cons.mp h with he | h
      · injection he with h1 h2
        subst h1; subst h2
        exact ⟨0, rfl, rfl⟩
      · obtain ⟨i, h1, h2⟩ := ih h
        exact ⟨i + 1, h1, h2⟩

/-! ### Lemmas about `SeqId` labelling and `astype` -/

theorem seqIdLabels_ok {cells : List (Option String)} {ids : List String}
    (h : seqIdLabels cells = .ok ids) :
    ∃ vals : List String, cells = vals.map some ∧
      ids = vals.map (fun v => "SeqId." ++ v) := by
  induction cells generalizing ids with
  | nil =>
    simp only [seqIdLabels] at h
    injection h with h
    exact ⟨[], rfl, h ▸ rfl⟩
  | cons c cs ih =>
    cases c with
    | none => exact Except.noConfusion h
    | some v =>
      simp only [seqIdLabels] at h
      cases hrec : seqIdLabels cs with
      | error e => rw [hrec] at h; exact Except.noConfusion h
      | ok ids' =>
        rw [hrec] at h
        injection h with h
        obtain ⟨vals, hc, hi⟩ := ih hrec
        exact ⟨v :: vals, by simp [hc], by simp [← h, hi]⟩

theorem seqIdsOf_not_mem {index : List String} {padded : List (List (Option String))}
    {w : Nat} (h : "SeqId" ∉ index) :
    seqIdsOf index padded w = .error .keyErrorSeqId := by
  have hf : (index.zip padded).filter (fun p => p.1 == "SeqId") = [] := by
    rw [List.filter_eq_nil]
    rintro ⟨a, b⟩ hp
    obtain ⟨h1, _⟩ := List.of_mem_zip hp
    simp only [beq_iff_eq]
    intro he
    exact h (he ▸ h1)
  unfold seqIdsOf
  rw [hf]

theorem seqIdsOf_ok_mem {index : List String} {padded : List (List (Option String))}
    {w : Nat} {ids : List String} (h : seqIdsOf index padded w = .ok ids) :
    "SeqId" ∈ index := by
  unfold seqIdsOf at h
  cases hf : (index.zip padded).filter (fun q => q.1 == "SeqId") with
  | nil => rw [hf] at h; exact Except.noConfusion h
  | cons p ps =>
    have hp : p ∈ (index.zip padded).filter (fun q => q.1 == "SeqId") := by
      rw [hf]; exact List.mem_cons_self _ _
    obtain ⟨hz, hb⟩ := List.mem_filter.mp hp
    obtain ⟨a, b⟩ := p
    have ha : a = "SeqId" := by simpa using hb
    exact ha ▸ (List.of_mem_zip hz).1

theorem seqIdsOf_ok_parts {index : List String} {padded : List (List (Option String))}
    {w : Nat} {ids : List String}
    (hw : ∀ q ∈ padded, q.length = w)
    (h : seqIdsOf index padded w = .ok ids) :
    ids.length = w ∧
      ∃ (i : Nat) (vals : List String), index.get? i = some "SeqId" ∧
        padded.get? i = some (vals.map some) ∧
        ids = vals.map (fun v => "SeqId." ++ v) := by
  unfold seqIdsOf at h
  cases hf : (index.zip padded).filter (fun q => q.1 == "SeqId") with
  | nil => rw [hf] at h; exact Except.noConfusion h
  | cons p ps =>
    rw [hf] at h
    have hp : p ∈ (index.zip padded).filter (fun q => q.1 == "SeqId") := by
      rw [hf]; exact List.mem_cons_self _ _
    obtain ⟨hz, hb⟩ := List.mem_filter.mp hp
    obtain ⟨a, row⟩ := p
    have ha : a = "SeqId" := by simpa using hb
    subst ha
    obtain ⟨i, h1, h2⟩ := mem_zip_get? hz
    have hlen : row.length = w := hw row (List.of_mem_zip hz).2
    cases ps with
    | nil =>
      change seqIdLabels row = Except.ok ids at h
      obtain ⟨vals, hrow, hids⟩ := seqIdLabels_ok h
      have hvw : vals.length = w := by
        rw [hrow] at hlen; simpa using hlen
      constructor
      · rw [hids]; simp [hvw]
      · exact ⟨i, vals, h1, by rw [← hrow]; exact h2, hids⟩
    | cons q rest =>
      change (if w = 0 then Except.ok [] else Except.error AdatError.typeError) = Except.ok ids at h
      by_cases hw0 : w = 0
      · rw [if_pos hw0] at h
        injection h with h
        subst h
        have hrow : row = [] := List.length_eq_zero.mp (by omega)
        subst hrow
        exact ⟨by simpa using hw0.symm, i, [], h1, by simpa using h2, rfl⟩
      · rw [if_neg hw0] at h; exact Except.noConfusion h

theorem astypeCells_length {n j : Nat} {cells : List (Option String)} {ps : List PCell}
    (h : astypeCells n j cells = .ok ps) : ps.length = cells.length := by
  induction cells generalizing j ps with
  | nil =>
    simp only [astypeCells] at h
    injection h with h
    simp [← h]
  | cons c cs ih =>
    simp only [astypeCells] at h
    cases h1 : astypeCell n j c with
    | error e => rw [h1] at h; exact Except.noConfusion h
    | ok p =>
      rw [h1] at h
      cases h2 : astypeCells n (j + 1) cs with
      | error e => rw [h2] at h; exact Except.noConfusion h
      | ok ps' =>
        rw [h2] at h
        injection h with h
        simp [← h, ih h2]

theorem astypeCells_valid {n j : Nat} {cells : List (Option String)} {ps : List PCell}
    (h : astypeCells n j cells = .ok ps) :
    ∀ i s, n ≤ j + i → cells.get? i = some (some s) → (pyFloat s).isSome = true := by
  induction cells generalizing j ps with
  | nil => intro i s _ hg; simp at hg
  | cons c cs ih =>
    simp only [astypeCells] at h
    cases h1 : astypeCell n j c with
    | error e => rw [h1] at h; exact Except.noConfusion h
    | ok p =>
      rw [h1] at h
      cases h2 : astypeCells n (j + 1) cs with
      | error e => rw [h2] at h; exact Except.noConfusion h
      | ok ps' =>
        intro i s hn hg
        cases i with
        | zero =>
          have hc : c = some s := by simpa using hg
          subst hc
          simp only [astypeCell] at h1
          rw [if_neg (by omega)] at h1
          cases hpf : pyFloat s with
          | none => rw [hpf] at h1; exact Except.noConfusion h1
          | some f => simp [hpf]
        | succ i =>
          exact ih h2 i s (by omega) hg

theorem astypeCells_numeric {n j : Nat} {cells : List (Option String)} {ps : List PCell}
    (h : astypeCells n j cells = .ok ps) :
    ∀ i p, n ≤ j + i → ps.get? i = some p → p.isNumeric = true := by
  induction cells generalizing j ps with
  | nil =>
    simp only [astypeCells] at h
    injection h with h
    intro i p _ hg
    simp [← h] at hg
  | cons c cs ih =>
    simp only [astypeCells] at h
    cases h1 : astypeCell n j c with
    | error e => rw [h1] at h; exact Except.noConfusion h
    | ok p0 =>
      rw [h1] at h
      cases h2 : astypeCells n (j + 1) cs with
      | error e => rw [h2] at h; exact Except.noConfusion h
      | ok ps' =>
        rw [h2] at h
        injection h with h
        intro i p hn hg
        cases i with
        | zero =>
          have hp : p0 = p := by
            rw [← h] at hg; simpa using hg
          subst hp
          cases c with
          | none =>
            simp only [astypeCell] at h1
            injection h1 with h1
            simp [← h1, PCell.isNumeric]
          | some s =>
            simp only [astypeCell] at h1
            rw [if_neg (by omega)] at h1
            cases hpf : pyFloat s with
            | none => rw [hpf] at h1; exact Except.noConfusion h1
            | some f =>
              rw [hpf] at h1
              injection h1 with h1
              simp [← h1, PCell.isNumeric]
        | succ i =>
          refine ih h2 i p (by omega) ?_
          rw [← h] at hg; exact hg

theorem astypeTable_length {n w2 : Nat} {rows : List (List String)}
    {prows : List (List PCell)} (h : astypeTable n w2 rows = .ok prows) :
    prows.length = rows.length := by
  induction rows generalizing prows with
  | nil =>
    simp only [astypeTable] at h
    injection h with h
    simp [← h]
  | cons r rs ih =>
    simp only [astypeTable] at h
    cases h1 : astypeCells n 0 (padTo w2 r) with
    | error e => rw [h1] at h; exact Except.noConfusion h
    | ok pr =>
      rw [h1] at h
      cases h2 : astypeTable n w2 rs with
      | error e => rw [h2] at h; exact Except.noConfusion h
      | ok prs =>
        rw [h2] at h
        injection h with h
        simp [← h, ih h2]

theorem astypeTable_valid {n w2 : Nat} {rows : List (List String)}
    {prows : List (List PCell)} (h : astypeTable n w2 rows = .ok prows) :
    ∀ r ∈ rows, ∀ j s, n ≤ j → r.get? j = some s → (pyFloat s).isSome = true := by
  induction rows generalizing prows with
  | nil => intro r hr; cases hr
  | cons r0 rs ih =>
    simp only [astypeTable] at h
    cases h1 : astypeCells n 0 (padTo w2 r0) with
    | error e => rw [h1] at h; exact Except.noConfusion h
    | ok pr =>
      rw [h1] at h
      cases h2 : astypeTable n w2 rs with
      | error e => rw [h2] at h; exact Except.noConfusion h
      | ok prs =>
        intro r hr j s hn hg
        rcases List.mem_cons.mp hr with rfl | hr
        · obtain ⟨hj, -⟩ := List.get?_eq_some.mp hg
          exact astypeCells_valid h1 j s (by omega) (by
            rw [padTo_get?_of_lt hj, hg]; rfl)
        · exact ih h2 r hr j s hn hg

theorem astypeTable_numeric {n w2 : Nat} {rows : List (List String)}
    {prows : List (List PCell)} (h : astypeTable n w2 rows = .ok prows) :
    ∀ pr ∈ prows, ∀ j p, n ≤ j → pr.get? j = some p → p.isNumeric = true := by
  induction rows generalizing prows with
  | nil =>
    simp only [astypeTable] at h
    injection h with h
    intro pr hpr
    rw [← h] at hpr
    cases hpr
  | cons r0 rs ih =>
    simp only [astypeTable] at h
    cases h1 : astypeCells n 0 (padTo w2 r0) with
    | error e => rw [h1] at h; exact Except.noConfusion h
    | ok pr0 =>
      rw [h1] at h
      cases h2 : astypeTable n w2 rs with
      | error e => rw [h2] at h; exact Except.noConfusion h
      | ok prs =>
        rw [h2] at h
        injection h with h
        intro pr hpr j p hn hg
        rw [← h] at hpr
        rcases List.mem_cons.mp hpr with rfl | hpr
        · exact astypeCells_numeric h1 j p (by omega) hg
        · exact ih h2 pr hpr j p hn hg

/-! ### Lemmas about one step inside the `^TABLE_BEGIN` section -/

theorem stepTable_none {kop ksam : Bool} {st : ParseState} {row : List String}
    (hsan : st.sampleAnnotNames = none) :
    stepTable kop ksam st row = .error .keyErrorSampleAnnotNames := by
  unfold stepTable
  rw [hsan]

theorem stepTable_pres {kop ksam : Bool} {st st' : ParseState} {row : List String}
    (h : stepTable kop ksam st row = .ok st') :
    st'.curSection = st.curSection ∧ st'.sampleAnnotNames = st.sampleAnnotNames ∧
    st'.sampleTypeFieldI = st.sampleTypeFieldI ∧ st'.rowCheckFieldI = st.rowCheckFieldI ∧
    st'.checksum = st.checksum ∧ st'.metadata = st.metadata := by
  unfold stepTable at h
  dsimp only at h
  repeat' split at h
  all_goals first
    | exact Except.noConfusion h
    | (injection h with h; subst h; exact ⟨rfl, rfl, rfl, rfl, rfl, rfl⟩)

theorem stepTable_dup {kop ksam : Bool} {st : ParseState} {row san : List String}
    (hsan : st.sampleAnnotNames = some san)
    (hget : row.get? san.length = some "")
    (hdup : row.take san.length = san) :
    stepTable kop ksam st row = .ok st := by
  unfold stepTable
  rw [hsan]
  dsimp only
  rw [hget]
  dsimp only
  rw [if_neg (by simp), if_pos hdup]

theorem stepTable_count {kop ksam : Bool} {st st' : ParseState} {row san : List String}
    (hsan : st.sampleAnnotNames = some san)
    (hti : st.sampleTypeFieldI = some (san.indexOf "SampleType"))
    (hri : st.rowCheckFieldI = some (san.indexOf "RowCheck"))
    (h : stepTable kop ksam st row = .ok st') :
    st'.sampleAndIntensityData.length =
      st.sampleAndIntensityData.length + (if surviveRow kop ksam san row then 1 else 0) := by
  unfold stepTable at h
  rw [hsan, hti, hri] at h
  dsimp only at h
  cases hget : row.get? san.length with
  | none => rw [hget] at h; exact Except.noConfusion h
  | some ccn =>
    rw [hget] at h
    dsimp only at h
    by_cases hcc : ccn ≠ ""
    · rw [if_pos hcc] at h
      have hs : surviveRow kop ksam san row = false := by
        have f1 : (row.get? san.length == some "") = false :=
          beq_eq_false_iff_ne.mpr (by rw [hget]; simpa using hcc)
        simp only [surviveRow, f1, Bool.false_and]
      split at h <;> (injection h with h; subst h; simp [hs])
    · rw [if_neg hcc] at h
      rw [not_not] at hcc
      subst hcc
      by_cases hdup : row.take san.length = san
      · rw [if_pos hdup] at h
        injection h with h
        subst h
        have hs : surviveRow kop ksam san row = false := by
          have f2 : (row.take san.length == san) = true := beq_iff_eq.mpr hdup
          simp only [surviveRow, f2, Bool.not_true, Bool.and_false, Bool.false_and]
        simp [hs]
      · rw [if_neg hdup] at h
        by_cases hst : (ksam && sampTypeFails (some (san.indexOf "SampleType")) (row.take san.length)) = true
        · rw [if_pos hst] at h
          injection h with h
          subst h
          have hs : surviveRow kop ksam san row = false := by
            simp only [surviveRow, hst, Bool.not_true, Bool.and_false, Bool.false_and]
          simp [hs]
        · rw [if_neg hst] at h
          by_cases hrc : (kop && rowCheckFails (some (san.indexOf "RowCheck")) (row.take san.length)) = true
          · rw [if_pos hrc] at h
            injection h with h
            subst h
            have hs : surviveRow kop ksam san row = false := by
              simp only [surviveRow, hrc, Bool.not_true, Bool.and_false]
            simp [hs]
          · rw [if_neg hrc] at h
            injection h with h
            subst h
            rw [Bool.not_eq_true] at hst hrc
            have hs : surviveRow kop ksam san row = true := by
              have f2 : (row.take san.length == san) = false := beq_eq_false_iff_ne.mpr hdup
              simp only [surviveRow, hget, f2, hst, hrc, Bool.not_false, Bool.and_true]
              simp
            simp [hs]

theorem stepTable_data {kop ksam : Bool} {st st' : ParseState} {row : List String}
    (h : stepTable kop ksam st row = .ok st') :
    st'.sampleAndIntensityData = st.sampleAndIntensityData ∨
    ∃ san, st.sampleAnnotNames = some san ∧
      st'.sampleAndIntensityData = st.sampleAndIntensityData ++
        [row.take san.length ++
          (if kop && truthy st.colPassFlag then
            filterMask (row.drop (san.length + 1)) (st.colPassFlag.getD [])
          else row.drop (san.length + 1))] := by
  unfold stepTable at h
  cases hsan : st.sampleAnnotNames with
  | none => rw [hsan] at h; exact Except.noConfusion h
  | some san =>
    rw [hsan] at h
    dsimp only at h
    cases hget : row.get? san.length with
    | none => rw [hget] at h; exact Except.noConfusion h
    | some ccn =>
      rw [hget] at h
      dsimp only at h
      by_cases hcc : ccn ≠ ""
      · rw [if_pos hcc] at h
        split at h <;> (injection h with h; subst h; left; rfl)
      · rw [if_neg hcc] at h
        by_cases hdup : row.take san.length = san
        · rw [if_pos hdup] at h
          injection h with h
          subst h
          left; rfl
        · rw [if_neg hdup] at h
          by_cases hst : (ksam && sampTypeFails st.sampleTypeFieldI (row.take san.length)) = true
          · rw [if_pos hst] at h
            injection h with h
            subst h
            left; rfl
          · rw [if_neg hst] at h
            by_cases hrc : (kop && rowCheckFails st.rowCheckFieldI (row.take san.length)) = true
            · rw [if_pos hrc] at h
              injection h with h
              subst h
              left; rfl
            · rw [if_neg hrc] at h
              injection h with h
              subst h
              right
              exact ⟨san, rfl, rfl⟩

theorem stepTable_seq {kop ksam : Bool} {st st' : ParseState} {row : List String}
    (h : stepTable kop ksam st row = .ok st') :
    (st'.sequenceData = st.sequenceData ∧ st'.sequenceDataIndex = st.sequenceDataIndex ∧
      st'.colPassFlag = st.colPassFlag) ∨
    ∃ san ccn, st.sampleAnnotNames = some san ∧
      st'.sequenceData = st.sequenceData ++ [row.drop (san.length + 1)] ∧
      st'.sequenceDataIndex = st.sequenceDataIndex ++ [ccn] ∧
      (st'.colPassFlag = st.colPassFlag ∨
        (kop = true ∧ ccn = "ColCheck" ∧
          st'.colPassFlag = some ((row.drop (san.length + 1)).map (fun v => v == "PASS")))) := by
  unfold stepTable at h
  cases hsan : st.sampleAnnotNames with
  | none => rw [hsan] at h; exact Except.noConfusion h
  | some san =>
    rw [hsan] at h
    dsimp only at h
    cases hget : row.get? san.length with
    | none => rw [hget] at h; exact Except.noConfusion h
    | some ccn =>
      rw [hget] at h
      dsimp only at h
      by_cases hcc : ccn ≠ ""
      · rw [if_pos hcc] at h
        by_cases hck : (kop && (ccn == "ColCheck")) = true
        · rw [if_pos hck] at h
          injection h with h
          subst h
          right
          simp only [Bool.and_eq_true] at hck
          exact ⟨san, ccn, rfl, rfl, rfl, Or.inr ⟨hck.1, beq_iff_eq.mp hck.2, rfl⟩⟩
        · rw [if_neg hck] at h
          injection h with h
          subst h
          right
          exact ⟨san, ccn, rfl, rfl, rfl, Or.inl rfl⟩
      · rw [if_neg hcc] at h
        by_cases hdup : row.take san.length = san
        · rw [if_pos hdup] at h
          injection h with h
          subst h
          left; exact ⟨rfl, rfl, rfl⟩
        · rw [if_neg hdup] at h
          by_cases hst : (ksam && sampTypeFails st.sampleTypeFieldI (row.take san.length)) = true
          · rw [if_pos hst] at h
            injection h with h
            subst h
            left; exact ⟨rfl, rfl, rfl⟩
          · rw [if_neg hst] at h
            by_cases hrc : (kop && rowCheckFails st.rowCheckFieldI (row.take san.length)) = true
            · rw [if_pos hrc] at h
              injection h with h
              subst h
              left; exact ⟨rfl, rfl, rfl⟩
            · rw [if_neg hrc] at h
              injection h with h
              subst h
              left; exact ⟨rfl, rfl, rfl⟩

/-! ### Lemmas about one step outside the `^TABLE_BEGIN` section -/

theorem stepOther_ok {st st' : ParseState} {row : List String}
    (h : stepOther st row = .ok st') :
    ∃ r0 rest, row = r0 :: rest ∧
      ((r0 ∈ markers ∧ st' = { st with curSection := some r0 }) ∨
       (r0 ∉ markers ∧ st.curSection = none ∧ r0 = "!Checksum" ∧
         ∃ v vs, rest = v :: vs ∧ st' = { st with checksum := some v }) ∨
       (r0 ∉ markers ∧ st.curSection = some "^HEADER" ∧
         ∃ v vs, rest = v :: vs ∧
           st' = { st with metadata := updateAssoc st.metadata r0 v }) ∨
       (r0 = "!Name" ∧ st.curSection = some "^ROW_DATA" ∧
         "SampleType" ∈ rest ∧ "RowCheck" ∈ rest ∧
         st' = { st with sampleTypeFieldI := some (rest.indexOf "SampleType"),
                         rowCheckFieldI := some (rest.indexOf "RowCheck"),
                         sampleAnnotNames := some rest }) ∨
       (r0 ∉ markers ∧ ¬(st.curSection = none ∧ r0 = "!Checksum") ∧
         st.curSection ≠ some "^HEADER" ∧ st' = st)) := by
  unfold stepOther at h
  cases row with
  | nil => exact Except.noConfusion h
  | cons r0 rest =>
    dsimp only at h
    refine ⟨r0, rest, rfl, ?_⟩
    by_cases h1 : r0 ∈ markers
    · rw [if_pos h1] at h
      injection h with h
      exact Or.inl ⟨h1, h.symm⟩
    · rw [if_neg h1] at h
      by_cases h2 : st.curSection = none ∧ r0 = "!Checksum"
      · rw [if_pos h2] at h
        cases rest with
        | nil => exact Except.noConfusion h
        | cons v vs =>
          injection h with h
          exact Or.inr (Or.inl ⟨h1, h2.1, h2.2, v, vs, rfl, h.symm⟩)
      · rw [if_neg h2] at h
        by_cases h3 : st.curSection = some "^HEADER"
        · rw [if_pos h3] at h
          cases rest with
          | nil => exact Except.noConfusion h
          | cons v vs =>
            injection h with h
            exact Or.inr (Or.inr (Or.inl ⟨h1, h3, v, vs, rfl, h.symm⟩))
        · rw [if_neg h3] at h
          by_cases h4 : st.curSection = some "^ROW_DATA" ∨ st.curSection = some "^COL_DATA"
          · rw [if_pos h4] at h
            by_cases h5 : st.curSection = some "^ROW_DATA" ∧ r0 = "!Name"
            · rw [if_pos h5] at h
              by_cases h6 : "SampleType" ∈ rest
              · rw [if_pos h6] at h
                by_cases h7 : "RowCheck" ∈ rest
                · rw [if_pos h7] at h
                  injection h with h
                  exact Or.inr (Or.inr (Or.inr (Or.inl ⟨h5.2, h5.1, h6, h7, h.symm⟩)))
                · rw [if_neg h7] at h
                  exact Except.noConfusion h
              · rw [if_neg h6] at h
                exact Except.noConfusion h
            · rw [if_neg h5] at h
              injection h with h
              exact Or.inr (Or.inr (Or.inr (Or.inr ⟨h1, h2, h3, h.symm⟩)))
          · rw [if_neg h4] at h
            injection h with h
            exact Or.inr (Or.inr (Or.inr (Or.inr ⟨h1, h2, h3, h.symm⟩)))

theorem step_eq_table {kop ksam : Bool} {st : ParseState} {row : List String}
    (hT : st.curSection = some "^TABLE_BEGIN") :
    step kop ksam st row = stepTable kop ksam st row := by
  unfold step
  rw [if_pos hT]

theorem step_eq_other {kop ksam : Bool} {st : ParseState} {row : List String}
    (hT : ¬st.curSection = some "^TABLE_BEGIN") :
    step kop ksam st row = stepOther st row := by
  unfold step
  rw [if_neg hT]

/-! ### Lemmas about finalization -/

theorem finalize_none {kop : Bool} {st : ParseState}
    (hsan : st.sampleAnnotNames = none) :
    finalize kop st = .error .keyErrorSampleAnnotNames := by
  unfold finalize
  dsimp only
  rw [hsan]

theorem finalize_no_seqid {kop : Bool} {st : ParseState} {san : List String}
    (hsan : st.sampleAnnotNames = some san)
    (hmem : "SeqId" ∉ st.sequenceDataIndex) :
    finalize kop st = .error .keyErrorSeqId := by
  unfold finalize
  dsimp only
  rw [hsan]
  dsimp only
  rw [seqIdsOf_not_mem hmem]

theorem finalize_ok_parts {kop : Bool} {st : ParseState} {r : AdatResult}
    (h : finalize kop st = .ok r) :
    ∃ san seqIds,
      st.sampleAnnotNames = some san ∧
      seqIdsOf st.sequenceDataIndex
        ((filteredSeq kop st).map (padTo (maxLen (filteredSeq kop st))))
        (maxLen (filteredSeq kop st)) = .ok seqIds ∧
      r.checksum = st.checksum ∧
      r.metadata = st.metadata ∧
      r.sampleAnnotNames = san ∧
      r.sequenceAnnotNames = st.sequenceDataIndex ∧
      r.sequenceData.index = st.sequenceDataIndex ∧
      r.sequenceData.columns = seqIds ∧
      r.sequenceData.rows = (filteredSeq kop st).map (padTo (maxLen (filteredSeq kop st))) ∧
      r.sampleAndIntensityData.columns = san ++ seqIds ∧
      r.sampleAndIntensityData.rows.length = st.sampleAndIntensityData.length ∧
      (st.sampleAndIntensityData.isEmpty = false →
        (san ++ seqIds).length = maxLen st.sampleAndIntensityData ∧
        astypeTable san.length (maxLen st.sampleAndIntensityData) st.sampleAndIntensityData =
          .ok r.sampleAndIntensityData.rows) := by
  unfold finalize at h
  dsimp only at h
  cases hsan : st.sampleAnnotNames with
  | none => rw [hsan] at h; exact Except.noConfusion h
  | some san =>
    rw [hsan] at h
    dsimp only at h
    cases hseq : seqIdsOf st.sequenceDataIndex
        ((filteredSeq kop st).map (padTo (maxLen (filteredSeq kop st))))
        (maxLen (filteredSeq kop st)) with
    | error e => rw [hseq] at h; exact Except.noConfusion h
    | ok seqIds =>
      rw [hseq] at h
      dsimp only at h
      by_cases hemp : st.sampleAndIntensityData.isEmpty = true
      · rw [if_pos hemp] at h
        injection h with h
        subst h
        refine ⟨san, seqIds, rfl, rfl, rfl, rfl, rfl, rfl, rfl, rfl, rfl, rfl, ?_, ?_⟩
        · simp [List.isEmpty_iff.mp hemp]
        · intro hf
          rw [hemp] at hf
          exact Bool.noConfusion hf
      · rw [if_neg hemp] at h
        by_cases hlen : (san ++ seqIds).length = maxLen st.sampleAndIntensityData
        · rw [if_pos hlen] at h
          cases hast : astypeTable san.length (maxLen st.sampleAndIntensityData)
              st.sampleAndIntensityData with
          | error e => rw [hast] at h; exact Except.noConfusion h
          | ok prows =>
            rw [hast] at h
            injection h with h
            subst h
            exact ⟨san, seqIds, rfl, rfl, rfl, rfl, rfl, rfl, rfl, rfl, rfl, rfl,
              astypeTable_length hast, fun _ => ⟨hlen, hast⟩⟩
        · rw [if_neg hlen] at h
          exact Except.noConfusion h

/-- The padded sequence rows built by `finalize` all have exactly the
DataFrame width. -/
theorem padded_widths (rows : List (List String)) :
    ∀ q ∈ rows.map (padTo (maxLen rows)), q.length = maxLen rows := by
  intro q hq
  obtain ⟨r, hr, rfl⟩ := List.mem_map.mp hq
  exact padTo_length (le_maxLen hr)

/-! ### Lemmas about the whole pass -/

theorem runLines_cons_ok {kop ksam : Bool} {st st1 : ParseState} {row : List String}
    {rows : List (List String)} (hs : step kop ksam st row = .ok st1) :
    runLines kop ksam st (row :: rows) = runLines kop ksam st1 rows := by
  simp only [runLines, hs]


theorem runLines_cons_err {kop ksam : Bool} {st : ParseState} {row : List String}
    {rows : List (List String)} {e : AdatError}
    (hs : step kop ksam st row = .error e) :
    runLines kop ksam st (row :: rows) = .error e := by
  unfold runLines
  rw [hs]

theorem runFinal_nil {kop ksam : Bool} {st : ParseState} :
    runFinal kop ksam st [] = finalize kop st := rfl

theorem runFinal_cons_ok {kop ksam : Bool} {st st1 : ParseState} {row : List String}
    {rows : List (List String)} (hs : step kop ksam st row = .ok st1) :
    runFinal kop ksam st (row :: rows) = runFinal kop ksam st1 rows := by
  unfold runFinal
  rw [runLines_cons_ok hs]

theorem runFinal_cons_err {kop ksam : Bool} {st : ParseState} {row : List String}
    {rows : List (List String)} {e : AdatError}
    (hs : step kop ksam st row = .error e) :
    runFinal kop ksam st (row :: rows) = .error e := by
  unfold runFinal
  rw [runLines_cons_err hs]

theorem step_indexInv {kop ksam : Bool} {st st' : ParseState} {row : List String}
    (h : step kop ksam st row = .ok st') (hi : IndexInv st) : IndexInv st' := by
  by_cases hT : st.curSection = some "^TABLE_BEGIN"
  · rw [step_eq_table hT] at h
    obtain ⟨-, h2, h3, h4, -, -⟩ := stepTable_pres h
    intro s hs
    rw [h2] at hs
    rw [h3, h4]
    exact hi s hs
  · rw [step_eq_other hT] at h
    obtain ⟨r0, rest, -, hcase⟩ := stepOther_ok h
    rcases hcase with ⟨-, rfl⟩ | ⟨-, -, -, v, vs, -, rfl⟩ | ⟨-, -, v, vs, -, rfl⟩ |
      ⟨-, -, -, -, rfl⟩ | ⟨-, -, -, rfl⟩
    · exact hi
    · exact hi
    · exact hi
    · intro s hs
      injection hs with hs
      subst hs
      exact ⟨rfl, rfl⟩
    · exact hi

theorem stepOther_tables {st st' : ParseState} {row : List String}
    (h : stepOther st row = .ok st') :
    st'.sampleAndIntensityData = st.sampleAndIntensityData ∧
    st'.sequenceData = st.sequenceData ∧
    st'.sequenceDataIndex = st.sequenceDataIndex ∧
    st'.colPassFlag = st.colPassFlag := by
  obtain ⟨r0, rest, -, hcase⟩ := stepOther_ok h
  rcases hcase with ⟨-, rfl⟩ | ⟨-, -, -, v, vs, -, rfl⟩ | ⟨-, -, v, vs, -, rfl⟩ |
    ⟨-, -, -, -, rfl⟩ | ⟨-, -, -, rfl⟩ <;> exact ⟨rfl, rfl, rfl, rfl⟩

theorem step_flagInv {kop ksam : Bool} {st st' : ParseState} {row : List String}
    (h : step kop ksam st row = .ok st') (hf : FlagInv kop st) : FlagInv kop st' := by
  by_cases hT : st.curSection = some "^TABLE_BEGIN"
  · rw [step_eq_table hT] at h
    rcases stepTable_seq h with ⟨e1, e2, e3⟩ | ⟨san, ccn, hsan, e1, e2, hflag⟩
    · intro m hm
      rw [e3] at hm
      obtain ⟨hk, hmem, slice, hsl, hms⟩ := hf m hm
      exact ⟨hk, by rw [e2]; exact hmem, slice, by rw [e1]; exact hsl, hms⟩
    · rcases hflag with e3 | ⟨hk, rfl, e3⟩
      · intro m hm
        rw [e3] at hm
        obtain ⟨hk, hmem, slice, hsl, hms⟩ := hf m hm
        exact ⟨hk, by rw [e2]; exact List.mem_append_left _ hmem,
          slice, by rw [e1]; exact List.mem_append_left _ hsl, hms⟩
      · intro m hm
        rw [e3] at hm
        injection hm with hm
        refine ⟨hk, by rw [e2]; exact List.mem_append_right _ (by simp),
          row.drop (san.length + 1), by rw [e1]; exact List.mem_append_right _ (by simp),
          hm.symm⟩
  · rw [step_eq_other hT] at h
    obtain ⟨e1, e2, e3, e4⟩ := stepOther_tables h
    intro m hm
    rw [e4] at hm
    obtain ⟨hk, hmem, slice, hsl, hms⟩ := hf m hm
    exact ⟨hk, e3 ▸ hmem, slice, e2 ▸ hsl, hms⟩

theorem runLines_flagInv {kop ksam : Bool} :
    ∀ {rows : List (List String)} {st st' : ParseState},
      runLines kop ksam st rows = .ok st' → FlagInv kop st → FlagInv kop st' := by
  intro rows
  induction rows with
  | nil =>
    intro st st' h hf
    injection h with h
    exact h ▸ hf
  | cons row rows ih =>
    intro st st' h hf
    cases hstep : step kop ksam st row with
    | error e => rw [runLines_cons_err hstep] at h; exact Except.noConfusion h
    | ok st1 =>
      rw [runLines_cons_ok hstep] at h
      exact ih h (step_flagInv hstep hf)

theorem step_san_none {kop ksam : Bool} {st st' : ParseState} {row : List String}
    (h : step kop ksam st row = .ok st') (hname : row.head? ≠ some "!Name")
    (hsan : st.sampleAnnotNames = none) : st'.sampleAnnotNames = none := by
  by_cases hT : st.curSection = some "^TABLE_BEGIN"
  · rw [step_eq_table hT, stepTable_none hsan] at h
    exact Except.noConfusion h
  · rw [step_eq_other hT] at h
    obtain ⟨r0, rest, hrow, hcase⟩ := stepOther_ok h
    rcases hcase with ⟨-, rfl⟩ | ⟨-, -, -, v, vs, -, rfl⟩ | ⟨-, -, v, vs, -, rfl⟩ |
      ⟨hr0, -, -, -, rfl⟩ | ⟨-, -, -, rfl⟩
    · exact hsan
    · exact hsan
    · exact hsan
    · exact absurd (by rw [hrow, hr0]; rfl) hname
    · exact hsan

theorem runLines_san_none {kop ksam : Bool} :
    ∀ {rows : List (List String)} {st st' : ParseState},
      (∀ row ∈ rows, row.head? ≠ some "!Name") →
      runLines kop ksam st rows = .ok st' →
      st.sampleAnnotNames = none → st'.sampleAnnotNames = none := by
  intro rows
  induction rows with
  | nil =>
    intro st st' _ h hsan
    injection h with h
    exact h ▸ hsan
  | cons row rows ih =>
    intro st st' hname h hsan
    cases hstep : step kop ksam st row with
    | error e => rw [runLines_cons_err hstep] at h; exact Except.noConfusion h
    | ok st1 =>
      rw [runLines_cons_ok hstep] at h
      exact ih (fun q hq => hname q (List.mem_cons_of_mem row hq)) h
        (step_san_none hstep (hname row (List.mem_cons_self row rows)) hsan)

theorem step_after_section {kop ksam : Bool} {st st' : ParseState} {row : List String}
    (h : step kop ksam st row = .ok st') (hsec : st.curSection ≠ none) :
    st'.checksum = st.checksum ∧ st'.curSection ≠ none := by
  by_cases hT : st.curSection = some "^TABLE_BEGIN"
  · rw [step_eq_table hT] at h
    obtain ⟨h1, -, -, -, h5, -⟩ := stepTable_pres h
    exact ⟨h5, by rw [h1]; exact hsec⟩
  · rw [step_eq_other hT] at h
    obtain ⟨r0, rest, -, hcase⟩ := stepOther_ok h
    rcases hcase with ⟨-, rfl⟩ | ⟨-, hnone, -, v, vs, -, rfl⟩ | ⟨-, -, v, vs, -, rfl⟩ |
      ⟨-, -, -, -, rfl⟩ | ⟨-, -, -, rfl⟩
    · exact ⟨rfl, by simp⟩
    · exact absurd hnone hsec
    · exact ⟨rfl, hsec⟩
    · exact ⟨rfl, hsec⟩
    · exact ⟨rfl, hsec⟩

theorem runLines_after_section {kop ksam : Bool} :
    ∀ {rows : List (List String)} {st st' : ParseState},
      runLines kop ksam st rows = .ok st' → st.curSection ≠ none →
      st'.checksum = st.checksum := by
  intro rows
  induction rows with
  | nil =>
    intro st st' h _
    injection h with h
    rw [h]
  | cons row rows ih =>
    intro st st' h hsec
    cases hstep : step kop ksam st row with
    | error e => rw [runLines_cons_err hstep] at h; exact Except.noConfusion h
    | ok st1 =>
      rw [runLines_cons_ok hstep] at h
      obtain ⟨hc, hs⟩ := step_after_section hstep hsec
      rw [ih h hs, hc]

theorem step_checksum_mono {kop ksam : Bool} {st st' : ParseState} {row : List String}
    (h : step kop ksam st row = .ok st') (hc : st.checksum.isSome = true) :
    st'.checksum.isSome = true := by
  by_cases hT : st.curSection = some "^TABLE_BEGIN"
  · rw [step_eq_table hT] at h
    obtain ⟨-, -, -, -, h5, -⟩ := stepTable_pres h
    rw [h5]
    exact hc
  · rw [step_eq_other hT] at h
    obtain ⟨r0, rest, -, hcase⟩ := stepOther_ok h
    rcases hcase with ⟨-, rfl⟩ | ⟨-, -, -, v, vs, -, rfl⟩ | ⟨-, -, v, vs, -, rfl⟩ |
      ⟨-, -, -, -, rfl⟩ | ⟨-, -, -, rfl⟩
    · exact hc
    · simp
    · exact hc
    · exact hc
    · exact hc

theorem runLines_checksum_mono {kop ksam : Bool} :
    ∀ {rows : List (List String)} {st st' : ParseState},
      runLines kop ksam st rows = .ok st' → st.checksum.isSome = true →
      st'.checksum.isSome = true := by
  intro rows
  induction rows with
  | nil =>
    intro st st' h hc
    injection h with h
    exact h ▸ hc
  | cons row rows ih =>
    intro st st' h hc
    cases hstep : step kop ksam st row with
    | error e => rw [runLines_cons_err hstep] at h; exact Except.noConfusion h
    | ok st1 =>
      rw [runLines_cons_ok hstep] at h
      exact ih h (step_checksum_mono hstep hc)

theorem runLines_checksum {kop ksam : Bool} :
    ∀ {rows : List (List String)} {st st' : ParseState},
      st.curSection = none → st.checksum = none →
      runLines kop ksam st rows = .ok st' →
      st'.checksum.isSome = preMarkerChecksum rows := by
  intro rows
  induction rows with
  | nil =>
    intro st st' hsec hck h
    injection h with h
    rw [← h, hck]
    rfl
  | cons row rows ih =>
    intro st st' hsec hck h
    cases hstep : step kop ksam st row with
    | error e => rw [runLines_cons_err hstep] at h; exact Except.noConfusion h
    | ok st1 =>
      rw [runLines_cons_ok hstep] at h
      rw [step_eq_other (by rw [hsec]; exact fun hx => Option.noConfusion hx)] at hstep
      obtain ⟨r0, rest, hrow, hcase⟩ := stepOther_ok hstep
      subst hrow
      rcases hcase with ⟨hmk, rfl⟩ | ⟨hnm, -, hr0, v, vs, -, rfl⟩ |
        ⟨-, hhd, v, vs, -, rfl⟩ | ⟨-, hrd, -, -, rfl⟩ | ⟨hnm, hncs, -, rfl⟩
      · -- section marker: the checksum can never be set afterwards
        have hne : ({ st with curSection := some r0 } : ParseState).curSection ≠ none := by
          simp
        have hfinal := runLines_after_section h hne
        rw [hfinal]
        simp [hck, preMarkerChecksum, hmk]
      · -- pre-section checksum line: the checksum is set and stays set
        subst hr0
        have hset : ({ st with checksum := some v } : ParseState).checksum.isSome = true := by
          simp
        have hfin := runLines_checksum_mono h hset
        rw [hfin]
        simp [preMarkerChecksum, hnm]
      · exact absurd hhd (by rw [hsec]; exact fun hx => Option.noConfusion hx)
      · exact absurd hrd (by rw [hsec]; exact fun hx => Option.noConfusion hx)
      · have hr0 : ¬r0 = "!Checksum" := fun hx => hncs ⟨hsec, hx⟩
        rw [ih hsec hck h]
        simp [preMarkerChecksum, hnm, hr0]

theorem runFinal_table_none {kop ksam : Bool} {st : ParseState}
    (hT : st.curSection = some "^TABLE_BEGIN") (hsan : st.sampleAnnotNames = none) :
    ∀ {rows : List (List String)} {r : AdatResult}, runFinal kop ksam st rows ≠ .ok r := by
  intro rows r h
  cases rows with
  | nil =>
    rw [runFinal_nil, finalize_none hsan] at h
    exact Except.noConfusion h
  | cons row rows =>
    rw [runFinal_cons_err (e := .keyErrorSampleAnnotNames)
      (by rw [step_eq_table hT]; exact stepTable_none hsan)] at h
    exact Except.noConfusion h

theorem runFinal_table {kop ksam : Bool} :
    ∀ {rows : List (List String)} {st : ParseState} {r : AdatResult} {san : List String},
      st.curSection = some "^TABLE_BEGIN" →
      st.sampleAnnotNames = some san →
      st.sampleTypeFieldI = some (san.indexOf "SampleType") →
      st.rowCheckFieldI = some (san.indexOf "RowCheck") →
      runFinal kop ksam st rows = .ok r →
      r.sampleAnnotNames = san ∧
      r.sampleAndIntensityData.rows.length =
        st.sampleAndIntensityData.length + rows.countP (surviveRow kop ksam san) := by
  intro rows
  induction rows with
  | nil =>
    intro st r san hT hsan hti hri h
    rw [runFinal_nil] at h
    obtain ⟨san', seqIds, h1, h2, h3, h4, h5, h6, h7, h8, h9, h10, h11, h12⟩ :=
      finalize_ok_parts h
    have hss : san' = san := by
      rw [hsan] at h1
      injection h1 with h1
      exact h1.symm
    subst hss
    exact ⟨h5, by rw [h11]; simp⟩
  | cons row rows ih =>
    intro st r san hT hsan hti hri h
    cases hstep : step kop ksam st row with
    | error e => rw [runFinal_cons_err hstep] at h; exact Except.noConfusion h
    | ok st1 =>
      rw [runFinal_cons_ok hstep] at h
      rw [step_eq_table hT] at hstep
      obtain ⟨p1, p2, p3, p4, -, -⟩ := stepTable_pres hstep
      have hcount := stepTable_count hsan hti hri hstep
      obtain ⟨hr1, hr2⟩ := ih (by rw [p1]; exact hT) (by rw [p2]; exact hsan)
        (by rw [p3]; exact hti) (by rw [p4]; exact hri) h
      refine ⟨hr1, ?_⟩
      rw [hr2, hcount, List.countP_cons]
      by_cases hsr : surviveRow kop ksam san row = true <;> simp [hsr] <;> omega

theorem runFinal_main {kop ksam : Bool} :
    ∀ {rows : List (List String)} {st : ParseState} {r : AdatResult},
      st.curSection ≠ some "^TABLE_BEGIN" → IndexInv st →
      runFinal kop ksam st rows = .ok r →
      r.sampleAndIntensityData.rows.length =
        st.sampleAndIntensityData.length +
          (tableSectionRows rows).countP (surviveRow kop ksam r.sampleAnnotNames) := by
  intro rows
  induction rows with
  | nil =>
    intro st r hT hinv h
    rw [runFinal_nil] at h
    obtain ⟨san, seqIds, h1, h2, h3, h4, h5, h6, h7, h8, h9, h10, h11, h12⟩ :=
      finalize_ok_parts h
    simpa [tableSectionRows] using h11
  | cons row rows ih =>
    intro st r hT hinv h
    cases hstep : step kop ksam st row with
    | error e => rw [runFinal_cons_err hstep] at h; exact Except.noConfusion h
    | ok st1 =>
      rw [runFinal_cons_ok hstep] at h
      have hstep0 := hstep
      rw [step_eq_other hT] at hstep
      obtain ⟨r0, rest, hrow, hcase⟩ := stepOther_ok hstep
      subst hrow
      by_cases hhead : ((r0 :: rest) : List String).head? = some "^TABLE_BEGIN"
      · have hr0 : r0 = "^TABLE_BEGIN" := by simpa using hhead
        subst hr0
        rcases hcase with ⟨-, rfl⟩ | ⟨hnm, -⟩ | ⟨hnm, -⟩ | ⟨hne, -⟩ | ⟨hnm, -, -, -⟩
        · cases hsan : st.sampleAnnotNames with
          | none =>
            have hT1 : ({ st with curSection := some "^TABLE_BEGIN" } : ParseState).curSection =
                some "^TABLE_BEGIN" := rfl
            have hsan1 : ({ st with curSection := some "^TABLE_BEGIN" } : ParseState).sampleAnnotNames =
                none := hsan
            exact absurd h (runFinal_table_none hT1 hsan1)
          | some san =>
            obtain ⟨hti, hri⟩ := hinv san hsan
            have hT1 : ({ st with curSection := some "^TABLE_BEGIN" } : ParseState).curSection =
                some "^TABLE_BEGIN" := rfl
            have hsan1 : ({ st with curSection := some "^TABLE_BEGIN" } : ParseState).sampleAnnotNames =
                some san := hsan
            obtain ⟨hr1, hr2⟩ := runFinal_table hT1 hsan1 hti hri h
            rw [hr1]
            simpa [tableSectionRows] using hr2
        · exact absurd (by simp [markers]) hnm
        · exact absurd (by simp [markers]) hnm
        · exact absurd hne (by simp)
        · exact absurd (by simp [markers]) hnm
      · have hT1 : st1.curSection ≠ some "^TABLE_BEGIN" := by
          rcases hcase with ⟨hmk, rfl⟩ | ⟨-, -, -, v, vs, -, rfl⟩ | ⟨-, -, v, vs, -, rfl⟩ |
            ⟨-, -, -, -, rfl⟩ | ⟨-, -, -, rfl⟩
          · intro hx
            refine hhead ?_
            simpa using hx
          · exact hT
          · exact hT
          · exact hT
          · exact hT
        have hidx1 : IndexInv st1 := step_indexInv hstep0 hinv
        have htab := stepOther_tables hstep
        have hrec := ih hT1 hidx1 h
        rw [htab.1] at hrec
        have hts : tableSectionRows ((r0 :: rest) :: rows) = tableSectionRows rows := by
          simp only [tableSectionRows]
          rw [if_neg hhead]
        rw [hts]
        exact hrec

theorem countP_survive_le {kop ksam : Bool} (san : List String)
    (rows : List (List String)) :
    rows.countP (surviveRow kop ksam san) ≤
      rows.countP (fun row => row.get? san.length == some "") := by
  induction rows with
  | nil => simp
  | cons row rows ih =>
    rw [List.countP_cons, List.countP_cons]
    have himp : (if surviveRow kop ksam san row = true then 1 else 0) ≤
        (if (row.get? san.length == some "") = true then 1 else 0) := by
      by_cases hs : surviveRow kop ksam san row = true
      · have he : (row.get? san.length == some "") = true := by
          have hs' := hs
          simp only [surviveRow, Bool.and_eq_true] at hs'
          exact hs'.1.1.1
        simp only [beq_iff_eq, List.get?_eq_getElem?] at he
        simp [hs, he]
      · simp [hs]
    omega

/-! ### The claims -/

/-- C1 (counterexample): the claim says that an input whose `ROW_DATA`
`!Name` row lacks the field name `SampleType` (or `RowCheck`) parses past
that row with the filter offset left unset.  On the code this is false:
`row.index('SampleType')` (line 88) raises `ValueError` when the name is
absent, so the parse fails at that row.  Concretely, a file whose schema
row is `!Name SampleId` makes `readAdat` fail with that `ValueError`
instead of returning a result. -/
theorem c1_counterexample :
    readAdat [["^ROW_DATA"], ["!Name", "SampleId"]] true true =
      .error (.valueError "SampleType") := rfl

/-- C1 (amended): when the `ROW_DATA` `!Name` row lacks `SampleType`, the
parse fails at that row with the lookup `ValueError` naming `SampleType`;
when it has `SampleType` but lacks `RowCheck`, it fails with the
`ValueError` naming `RowCheck`.  The filter offsets are never "left
unset" on this path, and filtering is never silently skipped. -/
theorem c1_amended :
    (∀ (kop ksam : Bool) (st : ParseState) (rest : List String),
      st.curSection = some "^ROW_DATA" → "SampleType" ∉ rest →
      step kop ksam st ("!Name" :: rest) = .error (.valueError "SampleType")) ∧
    (∀ (kop ksam : Bool) (st : ParseState) (rest : List String),
      st.curSection = some "^ROW_DATA" → "SampleType" ∈ rest → "RowCheck" ∉ rest →
      step kop ksam st ("!Name" :: rest) = .error (.valueError "RowCheck")) := by
  constructor
  · intro kop ksam st rest hsec hmem
    rw [step_eq_other (by rw [hsec]; simp)]
    unfold stepOther
    dsimp only
    rw [if_neg (by simp [markers]), if_neg (by simp [hsec]), if_neg (by simp [hsec]),
      if_pos (Or.inl hsec), if_pos ⟨hsec, rfl⟩, if_neg hmem]
  · intro kop ksam st rest hsec hmem1 hmem2
    rw [step_eq_other (by rw [hsec]; simp)]
    unfold stepOther
    dsimp only
    rw [if_neg (by simp [markers]), if_neg (by simp [hsec]), if_neg (by simp [hsec]),
      if_pos (Or.inl hsec), if_pos ⟨hsec, rfl⟩, if_pos hmem1, if_neg hmem2]

/-- C1 (witness): the two amended branches at a concrete `^ROW_DATA`
state. -/
theorem c1_witness :
    step true true { initState with curSection := some "^ROW_DATA" } ["!Name", "SampleId"] =
      .error (.valueError "SampleType") ∧
    step true true { initState with curSection := some "^ROW_DATA" }
        ["!Name", "SampleId", "SampleType"] =
      .error (.valueError "RowCheck") :=
  ⟨c1_amended.1 true true _ ["SampleId"] rfl (by simp),
   c1_amended.2 true true _ ["SampleId", "SampleType"] rfl (by simp) (by simp)⟩

/-- C6: if a data row of the `^TABLE_BEGIN` section is reached while no
`!Name` row was ever processed in `^ROW_DATA` (the schema
`SampleAnnotNames` is still unset), the parse fails at that row with the
schema error (`adatVals['SampleAnnotNames']` raises `KeyError`, the
spec's "SchemaError"); and an input with no `!Name`-headed row at all
never produces a result. -/
theorem c6 :
    (∀ (kop ksam : Bool) (st : ParseState) (row : List String),
      st.curSection = some "^TABLE_BEGIN" → st.sampleAnnotNames = none →
      step kop ksam st row = .error .keyErrorSampleAnnotNames) ∧
    (∀ (input : List (List String)) (kop ksam : Bool),
      (∀ row ∈ input, row.head? ≠ some "!Name") →
      (readAdat input kop ksam).isOk = false) := by
  constructor
  · intro kop ksam st row hT hsan
    rw [step_eq_table hT]
    exact stepTable_none hsan
  · intro input kop ksam hname
    unfold readAdat runFinal
    cases hrun : runLines kop ksam initState input with
    | error e => rfl
    | ok st =>
      dsimp only
      have hsan : st.sampleAnnotNames = none := runLines_san_none hname hrun rfl
      rw [finalize_none hsan]
      rfl

/-- C6 (witness): a table data row reached without a schema fails with
the schema error, and a small input with no `!Name` row produces no
result. -/
theorem c6_witness :
    step true true { initState with curSection := some "^TABLE_BEGIN" } ["x"] =
      .error .keyErrorSampleAnnotNames ∧
    (readAdat [["^HEADER"], ["k", "v"]] true true).isOk = false :=
  ⟨c6.1 true true _ ["x"] rfl rfl,
   c6.2 [["^HEADER"], ["k", "v"]] true true (by decide)⟩

/-- C7: finalization on a state whose accumulated column-annotation
labels do not contain `SeqId` fails with the `SeqId` lookup error
(`sequenceData.loc['SeqId']` raises `KeyError`, the spec's
"FormatError"), and consequently every successful parse contains a
column-annotation row labelled `SeqId` (its label is listed in
`SequenceAnnotNames`). -/
theorem c7 :
    (∀ (kop : Bool) (st : ParseState) (san : List String),
      st.sampleAnnotNames = some san → "SeqId" ∉ st.sequenceDataIndex →
      finalize kop st = .error .keyErrorSeqId) ∧
    (∀ (input : List (List String)) (kop ksam : Bool) (r : AdatResult),
      readAdat input kop ksam = .ok r → "SeqId" ∈ r.sequenceAnnotNames) := by
  constructor
  · intro kop st san hsan hmem
    exact finalize_no_seqid hsan hmem
  · intro input kop ksam r h
    unfold readAdat runFinal at h
    cases hrun : runLines kop ksam initState input with
    | error e => rw [hrun] at h; exact Except.noConfusion h
    | ok st =>
      rw [hrun] at h
      obtain ⟨san, seqIds, h1, h2, h3, h4, h5, h6, h7, h8, h9, h10, h11, h12⟩ :=
        finalize_ok_parts h
      rw [h6]
      exact seqIdsOf_ok_mem h2

/-- C7 (witness): finalizing with a schema but no `SeqId` row fails, and
the successful parse of `exC4w` lists `SeqId` among its annotation
names. -/
theorem c7_witness :
    finalize true { initState with sampleAnnotNames := some ["SampleId"] } =
      .error .keyErrorSeqId ∧
    "SeqId" ∈ rC4w.sequenceAnnotNames :=
  ⟨c7.1 true _ ["SampleId"] rfl (by simp [initState]),
   c7.2 exC4w true true rC4w rfl⟩

/-- C9: a `^TABLE_BEGIN` sample-annotation row (empty column-annotation
name slot at schema offset) whose annotation values are exactly the
schema field-name list is skipped entirely — the state is returned
unchanged — for every combination of the two filter flags. -/
theorem c9 :
    ∀ (kop ksam : Bool) (st : ParseState) (row san : List String),
      st.curSection = some "^TABLE_BEGIN" → st.sampleAnnotNames = some san →
      row.get? san.length = some "" → row.take san.length = san →
      step kop ksam st row = .ok st := by
  intro kop ksam st row san hT hsan hget hdup
  rw [step_eq_table hT]
  exact stepTable_dup hsan hget hdup

/-- C9 (witness): the embedded header-duplicate row is skipped at a
concrete state, with pass filtering on and sample filtering off. -/
theorem c9_witness :
    step true false
      { initState with
          curSection := some "^TABLE_BEGIN"
          sampleAnnotNames := some ["SampleId", "SampleType", "RowCheck"] }
      ["SampleId", "SampleType", "RowCheck", ""] =
    .ok { initState with
            curSection := some "^TABLE_BEGIN"
            sampleAnnotNames := some ["SampleId", "SampleType", "RowCheck"] } :=
  c9 true false _ _ _ rfl rfl rfl rfl

/-- C3: for every successfully parsed input, the row count of the final
sample-and-intensity table equals the number of rows of the
`^TABLE_BEGIN` section that survive the filters described by
`surviveRow` — the row is a sample-annotation row (empty
column-annotation name slot), is not an embedded duplicate of the schema
header (the always-on exclusion stated separately by C9), has
`SampleType = "Sample"` when `keepOnlySamples` is set and
`RowCheck = "PASS"` when `keepOnlyPasses` is set, all by exact string
equality — and in particular never exceeds the number of
empty-slot (sample-annotation) rows of that section. -/
theorem c3 :
    ∀ (input : List (List String)) (kop ksam : Bool) (r : AdatResult),
      readAdat input kop ksam = .ok r →
      r.sampleAndIntensityData.rows.length =
        (tableSectionRows input).countP (surviveRow kop ksam r.sampleAnnotNames) ∧
      r.sampleAndIntensityData.rows.length ≤
        (tableSectionRows input).countP
          (fun row => row.get? r.sampleAnnotNames.length == some "") := by
  intro input kop ksam r h
  unfold readAdat at h
  have hmain := runFinal_main (by simp [initState]) (fun s hs => Option.noConfusion hs) h
  simp only [initState] at hmain
  rw [List.length_nil, Nat.zero_add] at hmain
  exact ⟨hmain, hmain ▸ countP_survive_le _ _⟩

/-- C3 (witness): on `exC3w` (one genuine sample, one calibrator, one
embedded header duplicate) exactly one row survives. -/
theorem c3_witness :
    readAdat exC3w true true = .ok rC3w ∧
    rC3w.sampleAndIntensityData.rows.length =
      (tableSectionRows exC3w).countP (surviveRow true true rC3w.sampleAnnotNames) :=
  ⟨rfl, (c3 exC3w true true rC3w rfl).1⟩

/-- C4: for every successful parse, the columns of the final sample
table are the sample-annotation field names followed by exactly the
column labels of the sequence-annotation table (identical as a list,
hence as a set and in order), and those labels are `"SeqId."` prepended
to the values of the stored column-annotation row labelled `SeqId`. -/
theorem c4 :
    ∀ (input : List (List String)) (kop ksam : Bool) (r : AdatResult),
      readAdat input kop ksam = .ok r →
      r.sampleAndIntensityData.columns =
        r.sampleAnnotNames ++ r.sequenceData.columns ∧
      r.sampleAndIntensityData.columns.drop r.sampleAnnotNames.length =
        r.sequenceData.columns ∧
      ∃ (i : Nat) (vals : List String),
        r.sequenceData.index.get? i = some "SeqId" ∧
        r.sequenceData.rows.get? i = some (vals.map some) ∧
        r.sequenceData.columns = vals.map (fun v => "SeqId." ++ v) := by
  intro input kop ksam r h
  unfold readAdat runFinal at h
  cases hrun : runLines kop ksam initState input with
  | error e => rw [hrun] at h; exact Except.noConfusion h
  | ok st =>
    rw [hrun] at h
    obtain ⟨san, seqIds, h1, h2, h3, h4, h5, h6, h7, h8, h9, h10, h11, h12⟩ :=
      finalize_ok_parts h
    obtain ⟨-, i, vals, g1, g2, g3⟩ := seqIdsOf_ok_parts (padded_widths _) h2
    refine ⟨?_, ?_, i, vals, ?_, ?_, ?_⟩
    · rw [h10, h5, h8]
    · rw [h10, h5, h8, List.drop_left]
    · rw [h7]; exact g1
    · rw [h9]; exact g2
    · rw [h8]; exact g3

/-- C4 (witness): on `exC4w` the sample-table columns are the three
annotation fields followed by the sequence-table columns. -/
theorem c4_witness :
    readAdat exC4w true true = .ok rC4w ∧
    rC4w.sampleAndIntensityData.columns =
      rC4w.sampleAnnotNames ++ rC4w.sequenceData.columns :=
  ⟨rfl, (c4 exC4w true true rC4w rfl).1⟩

/-- C10: the result of a successful parse has its checksum set iff a
line whose first field is `!Checksum` occurs before the first
section-marker line of the input; and a `!Checksum` line processed while
the current section is `^HEADER` is recorded as a Metadata entry under
the key `!Checksum` without touching the checksum. -/
theorem c10 :
    (∀ (input : List (List String)) (kop ksam : Bool) (r : AdatResult),
      readAdat input kop ksam = .ok r →
      r.checksum.isSome = preMarkerChecksum input) ∧
    (∀ (kop ksam : Bool) (st : ParseState) (v : String) (rest : List String),
      st.curSection = some "^HEADER" →
      step kop ksam st ("!Checksum" :: v :: rest) =
        .ok { st with metadata := updateAssoc st.metadata "!Checksum" v }) := by
  constructor
  · intro input kop ksam r h
    unfold readAdat runFinal at h
    cases hrun : runLines kop ksam initState input with
    | error e => rw [hrun] at h; exact Except.noConfusion h
    | ok st =>
      rw [hrun] at h
      obtain ⟨san, seqIds, h1, h2, h3, h4, h5, h6, h7, h8, h9, h10, h11, h12⟩ :=
        finalize_ok_parts h
      rw [h3]
      exact runLines_checksum rfl rfl hrun
  · intro kop ksam st v rest hsec
    rw [step_eq_other (by rw [hsec]; simp)]
    unfold stepOther
    dsimp only
    rw [if_neg (by simp [markers]), if_neg (by simp [hsec]), if_pos hsec]

/-- C10 (witness): on `exC10w` (checksum line, then sections) the
checksum is set, matching `preMarkerChecksum`; and in `^HEADER` a
`!Checksum` line goes into the metadata. -/
theorem c10_witness :
    readAdat exC10w true true = .ok rC10w ∧
    rC10w.checksum.isSome = preMarkerChecksum exC10w ∧
    step true true { initState with curSection := some "^HEADER" } ["!Checksum", "zz"] =
      .ok { initState with
              curSection := some "^HEADER"
              metadata := updateAssoc initState.metadata "!Checksum" "zz" } :=
  ⟨rfl, c10.1 exC10w true true rC10w rfl, c10.2 true true _ "zz" [] rfl⟩

/-- C2 (counterexample): the claim says that with `keepOnlyPasses = true`
and a `ColCheck` column-annotation row present, the readout column count
equals the number of proteins whose `ColCheck` value is exactly `"PASS"`.
On `exC2` the `ColCheck` row is present but carries no values, so zero
proteins have value `"PASS"`; yet the parse succeeds with one readout
column (`SeqId.A`), because the empty mask is falsy in Python
(`keepOnlyPasses and colPassFlag`, lines 75 and 94) and filtering is
silently skipped.  The projection below evaluates the parse: readout
column count `1`, first annotation label `ColCheck`, and `0` occurrences
of `"PASS"` among that row's stored values. -/
theorem c2_counterexample :
    (readAdat exC2 true true).toOption.map
        (fun r => (r.readoutColCount, r.sequenceAnnotNames.getD 0 "",
          (r.sequenceData.rows.getD 0 []).countP (fun c => c == some "PASS"))) =
      some (1, "ColCheck", 0) := rfl

/-- C2 (amended): for every successfully parsed input, if pass filtering
is on and the pass mask is a nonempty list, the readout column count of
the final sample table equals the number of `true` positions of the
mask, and the mask is the last processed `ColCheck` row's values mapped
through equality with `"PASS"` (position `i` true iff value `i` is
exactly `"PASS"`); otherwise (no `ColCheck` row, an empty — hence falsy —
mask, or `keepOnlyPasses` off) the readout column count equals the total
protein count, i.e. the width `maxLen` of the accumulated
column-annotation rows. -/
theorem c2_amended :
    ∀ (input : List (List String)) (kop ksam : Bool) (st : ParseState) (r : AdatResult),
      runLines kop ksam initState input = .ok st →
      finalize kop st = .ok r →
      (∀ m, st.colPassFlag = some m → m ≠ [] →
        kop = true ∧
        (∃ slice ∈ st.sequenceData, m = slice.map (fun v => v == "PASS")) ∧
        "ColCheck" ∈ st.sequenceDataIndex ∧
        r.readoutColCount = m.countP id) ∧
      ((st.colPassFlag = none ∨ st.colPassFlag = some [] ∨ kop = false) →
        r.readoutColCount = maxLen st.sequenceData) := by
  intro input kop ksam st r hrun hfin
  have hflag : FlagInv kop st :=
    runLines_flagInv hrun (fun m hm => Option.noConfusion hm)
  obtain ⟨san, seqIds, h1, h2, h3, h4, h5, h6, h7, h8, h9, h10, h11, h12⟩ :=
    finalize_ok_parts hfin
  have hrc : r.readoutColCount = seqIds.length := by
    unfold AdatResult.readoutColCount
    rw [h10, h5]
    simp
  have hwlen : seqIds.length = maxLen (filteredSeq kop st) :=
    (seqIdsOf_ok_parts (padded_widths _) h2).1
  constructor
  · intro m hm hne
    obtain ⟨hk, hmem', slice, hsl, hms⟩ := hflag m hm
    have him : m.isEmpty = false := by
      cases m with
      | nil => exact absurd rfl hne
      | cons b bs => rfl
    have hfil : filteredSeq kop st = st.sequenceData.map (fun q => filterMask q m) := by
      unfold filteredSeq
      rw [hm, hk]
      simp [truthy, him]
    refine ⟨hk, ⟨slice, hsl, hms⟩, hmem', ?_⟩
    rw [hrc, hwlen, hfil]
    apply maxLen_eq_of
    · intro q hq
      obtain ⟨q0, hq0, rfl⟩ := List.mem_map.mp hq
      exact filterMask_length_le q0 m
    · refine ⟨filterMask slice m, List.mem_map_of_mem _ hsl, ?_⟩
      rw [hms]
      exact filterMask_map_length slice (fun v => v == "PASS")
  · intro hcase
    have hfil : filteredSeq kop st = st.sequenceData := by
      unfold filteredSeq
      rcases hcase with hm | hm | hk
      · rw [hm]; simp [truthy]
      · rw [hm]; simp [truthy]
      · rw [hk]; simp
    rw [hrc, hwlen, hfil]

/-- C2 (witness): on `exC2w` the mask is `[true, false]` and the final
table has exactly one readout column. -/
theorem c2_witness :
    runLines true true initState exC2w = .ok stC2w ∧
    finalize true stC2w = .ok rC2w ∧
    rC2w.readoutColCount = ([true, false].countP id) := by
  refine ⟨rfl, rfl, ?_⟩
  exact ((c2_amended exC2w true true stC2w rC2w rfl rfl).1 [true, false] rfl
    (by simp)).2.2.2

/-- C5: with pass filtering on, (1) a sample row processed while no
truthy mask exists keeps all its readout positions; (2) a sample row
processed after the mask is established stores mask-filtered readouts;
(3) at end of pass every accumulated column-annotation row is
retroactively filtered down to mask-true positions, in original order
(then padded to the common DataFrame width); (4) a mask can only exist
after a `ColCheck` column-annotation row was processed, so earlier
sample rows are never retroactively filtered. -/
theorem c5 :
    (∀ (ksam : Bool) (st st' : ParseState) (row san : List String),
      st.curSection = some "^TABLE_BEGIN" → st.sampleAnnotNames = some san →
      truthy st.colPassFlag = false →
      step true ksam st row = .ok st' →
      st'.sampleAndIntensityData = st.sampleAndIntensityData ∨
      st'.sampleAndIntensityData = st.sampleAndIntensityData ++
        [row.take san.length ++ row.drop (san.length + 1)]) ∧
    (∀ (ksam : Bool) (st st' : ParseState) (row san : List String) (m : List Bool),
      st.curSection = some "^TABLE_BEGIN" → st.sampleAnnotNames = some san →
      st.colPassFlag = some m → m ≠ [] →
      step true ksam st row = .ok st' →
      st'.sampleAndIntensityData = st.sampleAndIntensityData ∨
      st'.sampleAndIntensityData = st.sampleAndIntensityData ++
        [row.take san.length ++ filterMask (row.drop (san.length + 1)) m]) ∧
    (∀ (st : ParseState) (r : AdatResult) (m : List Bool),
      st.colPassFlag = some m → m ≠ [] →
      finalize true st = .ok r →
      r.sequenceData.rows =
        (st.sequenceData.map (fun q => filterMask q m)).map
          (padTo (maxLen (st.sequenceData.map (fun q => filterMask q m))))) ∧
    (∀ (ksam : Bool) (input : List (List String)) (st : ParseState),
      runLines true ksam initState input = .ok st →
      st.colPassFlag ≠ none → "ColCheck" ∈ st.sequenceDataIndex) := by
  refine ⟨?_, ?_, ?_, ?_⟩
  · intro ksam st st' row san hT hsan htr h
    rw [step_eq_table hT] at h
    rcases stepTable_data h with hd | ⟨san', hsan', hd⟩
    · exact Or.inl hd
    · have hss : san' = san := by
        rw [hsan] at hsan'
        injection hsan' with hsan'
        exact hsan'.symm
      subst hss
      right
      rw [hd, htr]
      simp
  · intro ksam st st' row san m hT hsan hm hne h
    rw [step_eq_table hT] at h
    rcases stepTable_data h with hd | ⟨san', hsan', hd⟩
    · exact Or.inl hd
    · have hss : san' = san := by
        rw [hsan] at hsan'
        injection hsan' with hsan'
        exact hsan'.symm
      subst hss
      right
      have him : m.isEmpty = false := by
        cases m with
        | nil => exact absurd rfl hne
        | cons b bs => rfl
      rw [hd, hm]
      simp [truthy, him]
  · intro st r m hm hne h
    obtain ⟨san, seqIds, h1, h2, h3, h4, h5, h6, h7, h8, h9, h10, h11, h12⟩ :=
      finalize_ok_parts h
    have him : m.isEmpty = false := by
      cases m with
      | nil => exact absurd rfl hne
      | cons b bs => rfl
    have hfil : filteredSeq true st = st.sequenceData.map (fun q => filterMask q m) := by
      unfold filteredSeq
      rw [hm]
      simp [truthy, him]
    rw [h9, hfil]
  · intro ksam input st hrun hne
    have hflag : FlagInv true st :=
      runLines_flagInv hrun (fun m hm => Option.noConfusion hm)
    obtain ⟨m, hm⟩ := Option.ne_none_iff_exists'.mp hne
    exact (hflag m hm).2.1

/-- C5 (witness): the four clauses at concrete states: `rowC5` is stored
whole before any mask (`stC5a`) and mask-filtered after (`stC5b`); the
`ColCheck`/`SeqId` rows of `stC2w` are retroactively filtered by the
mask at finalize; and the mask of the pass over `exC2w` implies a
processed `ColCheck` row. -/
theorem c5_witness :
    (stC5a1.sampleAndIntensityData = stC5a.sampleAndIntensityData ∨
      stC5a1.sampleAndIntensityData = stC5a.sampleAndIntensityData ++
        [rowC5.take 3 ++ rowC5.drop 4]) ∧
    (stC5b1.sampleAndIntensityData = stC5b.sampleAndIntensityData ∨
      stC5b1.sampleAndIntensityData = stC5b.sampleAndIntensityData ++
        [rowC5.take 3 ++ filterMask (rowC5.drop 4) [true, false]]) ∧
    rC2w.sequenceData.rows =
      (stC2w.sequenceData.map (fun q => filterMask q [true, false])).map
        (padTo (maxLen (stC2w.sequenceData.map (fun q => filterMask q [true, false])))) ∧
    "ColCheck" ∈ stC2w.sequenceDataIndex := by
  refine ⟨?_, ?_, ?_, ?_⟩
  · exact c5.1 true stC5a stC5a1 rowC5 ["SampleId", "SampleType", "RowCheck"]
      rfl rfl rfl rfl
  · exact c5.2.1 true stC5b stC5b1 rowC5 ["SampleId", "SampleType", "RowCheck"]
      [true, false] rfl rfl rfl (by simp) rfl
  · exact c5.2.2.1 stC2w rC2w [true, false] rfl (by simp) rfl
  · exact c5.2.2.2 true exC2w stC2w rfl (by simp [stC2w])

/-- C8: (1) a successful finalization implies every retained readout
cell of every accumulated sample row is a string accepted by Python
`float()`; (2) in the returned table every readout-position cell is of
floating-point type; (3) concretely, a retained readout cell `"abc"`
makes the parse fail with the `ParseError` naming that cell, rather than
coercing it. -/
theorem c8 :
    (∀ (input : List (List String)) (kop ksam : Bool) (st : ParseState) (r : AdatResult),
      runLines kop ksam initState input = .ok st →
      finalize kop st = .ok r →
      ∀ rrow ∈ st.sampleAndIntensityData, ∀ (j : Nat) (c : String),
        r.sampleAnnotNames.length ≤ j → rrow.get? j = some c →
        (pyFloat c).isSome = true) ∧
    (∀ (input : List (List String)) (kop ksam : Bool) (r : AdatResult),
      readAdat input kop ksam = .ok r →
      ∀ prow ∈ r.sampleAndIntensityData.rows, ∀ (j : Nat) (p : PCell),
        r.sampleAnnotNames.length ≤ j → prow.get? j = some p →
        p.isNumeric = true) ∧
    readAdat [["^ROW_DATA"], ["!Name", "SampleId", "SampleType", "RowCheck"],
        ["^TABLE_BEGIN"], ["", "", "", "SeqId", "X"],
        ["S1", "Sample", "PASS", "", "abc"]] true true =
      .error (.parseError "abc") := by
  refine ⟨?_, ?_, rfl⟩
  · intro input kop ksam st r hrun hfin rrow hmem j c hj hget
    obtain ⟨san, seqIds, h1, h2, h3, h4, h5, h6, h7, h8, h9, h10, h11, h12⟩ :=
      finalize_ok_parts hfin
    have hemp : st.sampleAndIntensityData.isEmpty = false := by
      cases hd : st.sampleAndIntensityData with
      | nil => rw [hd] at hmem; cases hmem
      | cons a l => rfl
    obtain ⟨-, hast⟩ := h12 hemp
    rw [h5] at hj
    exact astypeTable_valid hast rrow hmem j c hj hget
  · intro input kop ksam r h prow hmem j p hj hget
    unfold readAdat runFinal at h
    cases hrun : runLines kop ksam initState input with
    | error e => rw [hrun] at h; exact Except.noConfusion h
    | ok st =>
      rw [hrun] at h
      obtain ⟨san, seqIds, h1, h2, h3, h4, h5, h6, h7, h8, h9, h10, h11, h12⟩ :=
        finalize_ok_parts h
      by_cases hemp : st.sampleAndIntensityData.isEmpty = true
      · have hnil : r.sampleAndIntensityData.rows = [] := by
          apply List.length_eq_zero.mp
          rw [h11]
          simpa using List.isEmpty_iff.mp hemp ▸ rfl
        rw [hnil] at hmem
        cases hmem
      · obtain ⟨-, hast⟩ := h12 (Bool.not_eq_true _ ▸ hemp)
        rw [h5] at hj
        exact astypeTable_numeric hast prow hmem j p hj hget

/-- C8 (witness): the pass and finalization of `exC8w` succeed, the
stored readout cell `"1.5"` is accepted by the float model, and the
corresponding result cell has floating-point type. -/
theorem c8_witness :
    runLines true true initState exC8w = .ok stC8w ∧
    finalize true stC8w = .ok rC8w ∧
    (pyFloat "1.5").isSome = true := by
  refine ⟨rfl, rfl, ?_⟩
  exact c8.1 exC8w true true stC8w rC8w rfl rfl ["S1", "Sample", "PASS", "1.5"]
    (by simp [stC8w]) 3 "1.5" (by simp [rC8w]) rfl

end Readadat
